import Mathlib

/-!
Shallow embedding of the `proxmox_batch` backend (batch job orchestration and
progress-tracking engine) and proofs of the specification claims.

Source files embedded:
- `src/backend/proxmox_client.py` (`ProxmoxClient`): inventory / cluster fetch,
  with the raw `proxmoxer` API modelled as an oracle of fallible calls.
- `src/backend/batch_processor.py` (`BatchProcessor`): `process_single_vm`,
  `process_batch`, `run_full_analysis`, `save_individual_outputs`,
  `generate_consolidated_outputs`.
- `src/backend/database.py` (`Database`): the three tables as in-memory state.
- `src/backend/config.py` (`Settings`).

External collaborators (the Anthropic API behind `ClaudeAnalyzer`, the sqlite
driver, the filesystem) are modelled as oracles / explicit state:
- the analysis provider is a function `VMData → Option ClusterData →
  Except String Artifacts` (`analyze_complete`'s outcome for one resource);
- the database is a record of association lists, each write threaded
  explicitly;
- the filesystem is a pair of maps (files, directories) mutated by a list of
  primitive operations (`mkdir`, `write_text`), exactly in source order;
- steps of `run_full_analysis` that can raise in Python (database writes,
  file writes, the summary call) are guarded by failure oracles in `Env`.

Machine integers do not occur in the embedded fragment (Python ints are
unbounded; all counters here are `Nat`). Time stamps (`started_at`,
`completed_at`, `analyzed_at`) are out of scope and not modelled.
-/

/-- Raw VM/LXC listing entry as returned by the hypervisor API
(`proxmox.nodes(node).qemu.get()` / `.lxc.get()`): `vmid` plus optional
`name` and `status` keys. -/
structure RawVM where
  vmid : Nat
  name : Option String
  status : Option String
deriving DecidableEq, Repr

/-- Oracle for the raw `proxmoxer` API used by `ProxmoxClient`.  Every call
either returns a value or raises (modelled as `Except.error` with the
exception message).  Cluster status / resource payloads and per-resource
config payloads are opaque to the core and modelled as serialized text. -/
structure ProxmoxAPI where
  nodes_get : Except String (List String)
  qemu_get : String → Except String (List RawVM)
  lxc_get : String → Except String (List RawVM)
  qemu_config_get : String → Nat → Except String String
  lxc_config_get : String → Nat → Except String String
  cluster_status_get : Except String String
  cluster_resources_get : Except String String

/-- One inventory entry as built by `ProxmoxClient.get_all_vms` /
`get_all_lxcs` (the dict with keys `node`, `vm_id`, `vm_name`, `vm_type`,
`status`, `config`).  The `config` payload is opaque serialized text
(`json.dumps` passthrough). -/
structure VMData where
  node : String
  vm_id : String
  vm_name : String
  vm_type : String
  status : String
  config : String
deriving DecidableEq, Repr

/-- Cluster context built by `ProxmoxClient.get_cluster_info` on success;
`none` models the empty dict `{}` returned when the API raises. -/
structure ClusterData where
  status : String
  resources : String
  nodes : List String
deriving DecidableEq, Repr

/-- `ProxmoxClient.get_all_nodes`: returns the node list, or `[]` when the
API call raises (the exception is caught and logged). -/
def get_all_nodes (api : ProxmoxAPI) : List String :=
  match api.nodes_get with
  | .ok ns => ns
  | .error _ => []

/-- `ProxmoxClient.get_vm_config`: detailed VM config, or the empty dict
(serialized as "\x7b\x7d") when the call raises. -/
def get_vm_config (api : ProxmoxAPI) (node : String) (vmid : Nat) : String :=
  match api.qemu_config_get node vmid with
  | .ok c => c
  | .error _ => "\x7b\x7d"

/-- `ProxmoxClient.get_lxc_config`: detailed LXC config, or the empty dict
when the call raises. -/
def get_lxc_config (api : ProxmoxAPI) (node : String) (vmid : Nat) : String :=
  match api.lxc_config_get node vmid with
  | .ok c => c
  | .error _ => "\x7b\x7d"

/-- `ProxmoxClient.get_all_vms`: for each node, list QEMU VMs and build the
inventory dict per VM; a node whose listing call raises is skipped (caught
and logged), keeping the other nodes' results. -/
def get_all_vms (api : ProxmoxAPI) : List VMData :=
  (get_all_nodes api).foldl (fun acc node =>
    match api.qemu_get node with
    | .error _ => acc
    | .ok vms => acc ++ vms.map (fun vm =>
        { node := node
          vm_id := toString vm.vmid
          vm_name := vm.name.getD ("VM-" ++ toString vm.vmid)
          vm_type := "qemu"
          status := vm.status.getD "unknown"
          config := get_vm_config api node vm.vmid })) []

/-- `ProxmoxClient.get_all_lxcs`: same as `get_all_vms` for LXC containers. -/
def get_all_lxcs (api : ProxmoxAPI) : List VMData :=
  (get_all_nodes api).foldl (fun acc node =>
    match api.lxc_get node with
    | .error _ => acc
    | .ok lxcs => acc ++ lxcs.map (fun lxc =>
        { node := node
          vm_id := toString lxc.vmid
          vm_name := lxc.name.getD ("LXC-" ++ toString lxc.vmid)
          vm_type := "lxc"
          status := lxc.status.getD "unknown"
          config := get_lxc_config api node lxc.vmid })) []

/-- `ProxmoxClient.get_all_resources`: VMs then LXCs, concatenated. -/
def get_all_resources (api : ProxmoxAPI) : List VMData :=
  get_all_vms api ++ get_all_lxcs api

/-- `ProxmoxClient.get_cluster_info`: both cluster calls inside one
`try`; if either raises the whole function returns the empty dict
(modelled as `none`) instead of propagating the exception. -/
def get_cluster_info (api : ProxmoxAPI) : Option ClusterData :=
  match api.cluster_status_get, api.cluster_resources_get with
  | .ok s, .ok r => some { status := s, resources := r, nodes := get_all_nodes api }
  | .ok _, .error _ => none
  | .error _, _ => none

/-- The named text artifacts returned by `ClaudeAnalyzer.analyze_complete`
on success: `analysis` is always present, the other four are present only
when the corresponding toggle is on (absent keys are `none`). -/
structure Artifacts where
  analysis : String
  security_review : Option String
  optimization_recommendations : Option String
  terraform_template : Option String
  ansible_playbook : Option String
deriving DecidableEq, Repr

/-- One per-resource result row (`\x7b**vm_data, **analysis_results\x7d`):
the resource's inventory data merged with the artifact map and the `error`
flag.  A missing dict key is `none` / `false`. -/
structure AnalysisResult where
  vm : VMData
  analysis : Option String := none
  security_review : Option String := none
  optimization_recommendations : Option String := none
  terraform_template : Option String := none
  ansible_playbook : Option String := none
  error : Bool := false
deriving DecidableEq, Repr

/-- Analysis-relevant application settings (`config.py`), with the source
defaults. -/
structure Settings where
  output_dir : String := "./output"
  batch_size : Nat := 5
  enable_terraform : Bool := true
  enable_ansible : Bool := true
  enable_security_review : Bool := true
  enable_optimization : Bool := true
deriving DecidableEq, Repr

/-- Python truthiness of `result.get(key)` for a string-valued key: the key
is present and its value is a non-empty string. -/
def truthy : Option String → Bool
  | none => false
  | some s => !s.isEmpty

/-- `BatchProcessor.process_single_vm`: invoke the analysis provider for one
resource; on success merge the artifact map over the resource dict, on any
exception return the resource dict with `analysis = "Error: ..."` and
`error = true` — the exception never propagates (the function is total). -/
def process_single_vm (provider : VMData → Option ClusterData → Except String Artifacts)
    (cluster_context : Option ClusterData) (vm_data : VMData) : AnalysisResult :=
  match provider vm_data cluster_context with
  | .ok a =>
      { vm := vm_data
        analysis := some a.analysis
        security_review := a.security_review
        optimization_recommendations := a.optimization_recommendations
        terraform_template := a.terraform_template
        ansible_playbook := a.ansible_playbook
        error := false }
  | .error e =>
      { vm := vm_data
        analysis := some ("Error: " ++ e)
        error := true }

/-- Outcome of one task under `asyncio.gather(*tasks, return_exceptions=True)`:
either the task's value, or the exception it raised, captured.  The `fault`
oracle models a task-level exception outside `process_single_vm`'s own
`try` block (the spec's "total failure of the concurrent fan-out mechanism");
`gather` returns outcomes in task-submission order. -/
def gatherBatch (provider : VMData → Option ClusterData → Except String Artifacts)
    (fault : VMData → Option String) (cluster_context : Option ClusterData)
    (vms : List VMData) : List (Except String AnalysisResult) :=
  vms.map (fun vm =>
    match fault vm with
    | some e => .error e
    | none => .ok (process_single_vm provider cluster_context vm))

/-- `BatchProcessor.process_batch`: gather all tasks of the group, then drop
raw exceptions (logged) and keep the remaining results, preserving order. -/
def process_batch (provider : VMData → Option ClusterData → Except String Artifacts)
    (fault : VMData → Option String) (cluster_context : Option ClusterData)
    (vms : List VMData) : List AnalysisResult :=
  (gatherBatch provider fault cluster_context vms).filterMap Except.toOption

/-- Fuel-driven worker for `chunks` (fuel bounds the number of groups; any
fuel at least the list length is enough when the width is positive). -/
def chunksAux (fuel : Nat) (b : Nat) (l : List VMData) : List (List VMData) :=
  match fuel with
  | 0 => []
  | fuel + 1 =>
    match l with
    | [] => []
    | a :: t => (a :: t).take b :: chunksAux fuel b ((a :: t).drop b)

/-- The grouping performed by `run_full_analysis`'s loop
`for i in range(0, len(all_resources), batch_size): all_resources[i:i+batch_size]`:
contiguous slices of width `b` in inventory order, last slice possibly
shorter. -/
def chunks (b : Nat) (l : List VMData) : List (List VMData) :=
  chunksAux l.length b l

/-- One row of the `batch_jobs` table (timestamps out of scope). -/
structure BatchJobRow where
  status : String
  total_vms : Nat
  processed_vms : Nat
  error_message : Option String
deriving DecidableEq, Repr

/-- The sqlite database (`database.py`) as in-memory state: the three tables,
plus the autoincrement counter for `batch_jobs.id` (sqlite row ids start
at 1).  Table rows are newest-first association lists; `List.lookup` finds
the newest row for an id, matching the uniqueness of autoincremented ids. -/
structure DB where
  nextId : Nat := 1
  jobs : List (Nat × BatchJobRow) := []
  vm_analysis : List (Nat × AnalysisResult) := []
  reports : List (Nat × String × String) := []
deriving DecidableEq, Repr

/-- `Database.create_batch_job`: insert a row with status "running",
`processed_vms = 0` and the given total; return the fresh row id. -/
def create_batch_job (db : DB) (total_vms : Nat) : Nat × DB :=
  (db.nextId,
   { db with
      nextId := db.nextId + 1
      jobs := (db.nextId,
        { status := "running", total_vms := total_vms
          processed_vms := 0, error_message := none }) :: db.jobs })

/-- `Database.update_batch_job`: update the row with the given id.  The
"completed" branch sets `processed_vms`, `status` (and `completed_at`, out of
scope) and leaves `error_message` alone; every other status sets
`processed_vms`, `status` and `error_message`. -/
def update_batch_job (db : DB) (job_id : Nat) (processed : Nat)
    (status : String) (error : Option String) : DB :=
  { db with
      jobs := db.jobs.map (fun e =>
        if e.1 = job_id then
          if status = "completed" then
            (e.1, { e.2 with processed_vms := processed, status := status })
          else
            (e.1, { e.2 with processed_vms := processed, status := status,
                             error_message := error })
        else e) }

/-- `Database.save_vm_analysis`: insert one `vm_analysis` row. -/
def save_vm_analysis (db : DB) (batch_job_id : Nat) (vm_data : AnalysisResult) : DB :=
  { db with vm_analysis := (batch_job_id, vm_data) :: db.vm_analysis }

/-- `Database.save_infrastructure_report`: insert one report row. -/
def save_infrastructure_report (db : DB) (batch_job_id : Nat)
    (report_type : String) (content : String) : DB :=
  { db with reports := (batch_job_id, report_type, content) :: db.reports }

/-- A filesystem path, as the list of components below the process working
directory. -/
abbrev FsPath := List String

/-- The filesystem: contents of regular files, and the set of directories.
A run only ever writes whole files (`Path.write_text`) and creates
directories (`Path.mkdir(exist_ok=True)`). -/
structure FS where
  files : FsPath → Option String
  dirs : FsPath → Bool

/-- A primitive filesystem operation performed by the writer code, in source
order: `p.mkdir(exist_ok=True)` or `p.write_text(content)`. -/
inductive FsOp
  | mkdir (p : FsPath)
  | write (p : FsPath) (content : String)
deriving DecidableEq, Repr

/-- Apply one primitive operation: `mkdir` records the directory (idempotent,
`exist_ok=True`), `write` replaces the file's content in place. -/
def applyOp (fs : FS) : FsOp → FS
  | .mkdir p => { fs with dirs := fun q => if q = p then true else fs.dirs q }
  | .write p c => { fs with files := fun q => if q = p then some c else fs.files q }

/-- Apply a sequence of primitive operations left to right. -/
def applyOps (fs : FS) (ops : List FsOp) : FS :=
  ops.foldl applyOp fs

/-- Name sanitization used for per-resource directories and playbook files:
`vm_name.replace(' ', '_').replace('/', '_')`. -/
def sanitize (s : String) : String :=
  (s.replace " " "_").replace "/" "_"

/-- Per-resource output directory name: `f"\x7bvm_type\x7d_\x7bvm_name\x7d_\x7bvm_id\x7d"`
with the name sanitized. -/
def vmDirName (r : AnalysisResult) : String :=
  r.vm.vm_type ++ "_" ++ sanitize r.vm.vm_name ++ "_" ++ r.vm.vm_id

/-- The filesystem operations of `BatchProcessor.save_individual_outputs`
for one result, in source order: make the resource directory, write each
present-and-non-empty artifact to its fixed file name, and always write the
raw config as `config.json` (the `json.dumps` of the opaque payload is the
payload's serialized text itself). -/
def individualOpsFor (outDir : FsPath) (r : AnalysisResult) : List FsOp :=
  let vmDir := outDir ++ [vmDirName r]
  [FsOp.mkdir vmDir]
  ++ (if truthy r.analysis then
        [FsOp.write (vmDir ++ ["analysis.md"]) (r.analysis.getD "")] else [])
  ++ (if truthy r.security_review then
        [FsOp.write (vmDir ++ ["security_review.md"]) (r.security_review.getD "")] else [])
  ++ (if truthy r.optimization_recommendations then
        [FsOp.write (vmDir ++ ["optimization_recommendations.md"])
          (r.optimization_recommendations.getD "")] else [])
  ++ (if truthy r.terraform_template then
        [FsOp.write (vmDir ++ ["main.tf"]) (r.terraform_template.getD "")] else [])
  ++ (if truthy r.ansible_playbook then
        [FsOp.write (vmDir ++ ["playbook.yml"]) (r.ansible_playbook.getD "")] else [])
  ++ [FsOp.write (vmDir ++ ["config.json"]) r.vm.config]

/-- All operations of `save_individual_outputs`, one result after the other
in result-list order. -/
def individualOps (outDir : FsPath) (results : List AnalysisResult) : List FsOp :=
  (results.map (individualOpsFor outDir)).flatten

/-- `BatchProcessor.save_individual_outputs` as a filesystem transformer. -/
def save_individual_outputs (results : List AnalysisResult) (outDir : FsPath)
    (fs : FS) : FS :=
  applyOps fs (individualOps outDir results)

/-- First line of the consolidated Terraform main file. -/
def tfHeaderLine : String :=
  "# Proxmox Infrastructure - Generated by Proxmox Batch Processor\n\n"

/-- The static `terraform \x7b ... \x7d` / `provider "proxmox" \x7b ... \x7d`
block appended right after the header line. -/
def tfProviderBlock : String :=
  "terraform \x7b\n  required_providers \x7b\n    proxmox = \x7b\n      source  = \"Telmate/proxmox\"\n      version = \"~> 2.9\"\n    \x7d\n  \x7d\n\x7d\n\nprovider \"proxmox\" \x7b\n  pm_api_url      = var.proxmox_api_url\n  pm_api_token_id = var.proxmox_api_token_id\n  pm_api_token_secret = var.proxmox_api_token_secret\n  pm_tls_insecure = true\n\x7d\n\n"

/-- The full static preamble of the consolidated `main.tf`. -/
def tfPreamble : String :=
  tfHeaderLine ++ tfProviderBlock

/-- Whether a result contributes a section to the consolidated `main.tf`
(`result.get('terraform_template')` is truthy). -/
def hasTf (r : AnalysisResult) : Bool :=
  truthy r.terraform_template

/-- The resource-identifying header line of one consolidated-Terraform
section: `"\n# \x7bvm_name\x7d (\x7bvm_id\x7d)\n"`. -/
def tfLabel (r : AnalysisResult) : String :=
  "\n# " ++ r.vm.vm_name ++ " (" ++ r.vm.vm_id ++ ")\n"

/-- One section of the consolidated `main.tf`: the header line, then the
resource's Terraform template, then a blank separator. -/
def tfSection (r : AnalysisResult) : String :=
  tfLabel r ++ r.terraform_template.getD "" ++ "\n\n"

/-- Content of the consolidated `terraform/main.tf`: the preamble, then for
each result with a truthy Terraform template (in result order) its labeled
section, accumulated exactly as the source's `main_tf_content +=` loop. -/
def mainTfContent (results : List AnalysisResult) : String :=
  results.foldl (fun acc r => if hasTf r then acc ++ tfSection r else acc) tfPreamble

/-- Static content of `terraform/variables.tf`. -/
def variablesTf : String :=
  "variable \"proxmox_api_url\" \x7b\n  description = \"Proxmox API URL\"\n  type        = string\n\x7d\n\nvariable \"proxmox_api_token_id\" \x7b\n  description = \"Proxmox API Token ID\"\n  type        = string\n\x7d\n\nvariable \"proxmox_api_token_secret\" \x7b\n  description = \"Proxmox API Token Secret\"\n  type        = string\n  sensitive   = true\n\x7d\n"

/-- Static content of `terraform/README.md`. -/
def terraformReadme : String :=
  "# Proxmox Infrastructure - Terraform\n\nThis directory contains generated Terraform configurations for your Proxmox infrastructure.\n\n## Usage\n\n1. Initialize Terraform:\n   ```bash\n   terraform init\n   ```\n\n2. Review the plan:\n   ```bash\n   terraform plan\n   ```\n\n3. Apply (when ready):\n   ```bash\n   terraform apply\n   ```\n\n## Configuration\n\nSet the following variables in `terraform.tfvars` or via environment variables:\n- `proxmox_api_url`\n- `proxmox_api_token_id`\n- `proxmox_api_token_secret`\n"

/-- Static preamble of the consolidated Ansible `site.yml`. -/
def siteYmlPreamble : String :=
  "---\n# Proxmox Infrastructure - Generated by Proxmox Batch Processor\n- name: Provision Proxmox Infrastructure\n  hosts: localhost\n  gather_facts: false\n  tasks:\n\n"

/-- Whether a result contributes to the Ansible outputs
(`result.get('ansible_playbook')` is truthy). -/
def hasAnsible (r : AnalysisResult) : Bool :=
  truthy r.ansible_playbook

/-- The resource-identifying comment the `site.yml` loop appends for one
result: the header naming the resource, then a pointer comment — the
playbook text itself is NOT included. -/
def siteYmlSection (r : AnalysisResult) : String :=
  "    # " ++ r.vm.vm_name ++ " (" ++ r.vm.vm_id ++ ")\n"
  ++ "    # See individual playbooks for details\n\n"

/-- Content of the consolidated `ansible/site.yml`, accumulated exactly as
the source's `playbook_content +=` loop. -/
def siteYmlContent (results : List AnalysisResult) : String :=
  results.foldl (fun acc r => if hasAnsible r then acc ++ siteYmlSection r else acc)
    siteYmlPreamble

/-- Static content of `ansible/README.md`. -/
def ansibleReadme : String :=
  "# Proxmox Infrastructure - Ansible\n\nThis directory contains generated Ansible playbooks for your Proxmox infrastructure.\n\n## Usage\n\n1. Install required collections:\n   ```bash\n   ansible-galaxy collection install community.general\n   ```\n\n2. Configure inventory and variables in `inventory/hosts.yml`\n\n3. Run playbooks:\n   ```bash\n   ansible-playbook -i inventory/hosts.yml playbooks/<specific-playbook>.yml\n   ```\n\n## Organization\n\n- `playbooks/`: Individual playbooks for each VM/LXC\n- `site.yml`: Main playbook (customize as needed)\n"

/-- The filesystem operations of `BatchProcessor.generate_consolidated_outputs`,
in source order: for each enabled category, make the category directory and
write the consolidated file plus the static boilerplate; for Ansible also
write every individual playbook under `playbooks/`. -/
def consolidatedOps (s : Settings) (outDir : FsPath)
    (results : List AnalysisResult) : List FsOp :=
  (if s.enable_terraform then
    [FsOp.mkdir (outDir ++ ["terraform"]),
     FsOp.write (outDir ++ ["terraform", "main.tf"]) (mainTfContent results),
     FsOp.write (outDir ++ ["terraform", "variables.tf"]) variablesTf,
     FsOp.write (outDir ++ ["terraform", "README.md"]) terraformReadme]
   else [])
  ++ (if s.enable_ansible then
    [FsOp.mkdir (outDir ++ ["ansible"]),
     FsOp.write (outDir ++ ["ansible", "site.yml"]) (siteYmlContent results),
     FsOp.mkdir (outDir ++ ["ansible", "playbooks"])]
    ++ (results.filter hasAnsible).map (fun r =>
         FsOp.write (outDir ++ ["ansible", "playbooks",
             sanitize r.vm.vm_name ++ "_" ++ r.vm.vm_id ++ ".yml"])
           (r.ansible_playbook.getD ""))
    ++ [FsOp.write (outDir ++ ["ansible", "README.md"]) ansibleReadme]
   else [])

/-- `BatchProcessor.generate_consolidated_outputs` as a filesystem
transformer. -/
def generate_consolidated_outputs (s : Settings) (results : List AnalysisResult)
    (outDir : FsPath) (fs : FS) : FS :=
  applyOps fs (consolidatedOps s outDir results)

/-- The job output directory `output_dir / f"job_\x7bjob_id\x7d"`. -/
def jobOutputDir (s : Settings) (job_id : Nat) : FsPath :=
  [s.output_dir, "job_" ++ toString job_id]

/-- The ArtifactWriter of the spec: individual outputs followed by the
consolidated outputs, for one `(job_id, results)` pair. -/
def artifactWriter (s : Settings) (job_id : Nat) (results : List AnalysisResult)
    (fs : FS) : FS :=
  generate_consolidated_outputs s results (jobOutputDir s job_id)
    (save_individual_outputs results (jobOutputDir s job_id) fs)

/-- Observable events of one run, in the order the corresponding calls are
issued by the orchestrator's single control flow: an analysis call for a
resource, a `save_vm_analysis` call, an `update_batch_job` call (with the
processed count and status written), a `save_infrastructure_report` call. -/
inductive Event
  | analyzeReq (vm : VMData)
  | persistResult (job_id : Nat) (r : AnalysisResult)
  | updateJob (job_id : Nat) (processed : Nat) (status : String)
  | persistReport (job_id : Nat) (report_type : String)
deriving DecidableEq, Repr

/-- The environment of one run: the hypervisor API oracle, the analysis
provider (`ClaudeAnalyzer.analyze_complete` for one resource, fallible), the
task-fault oracle (an exception captured by `asyncio.gather` outside the
per-resource `try`), failure oracles for each suspension point inside the
`try` block of `run_full_analysis` that can raise in Python (`some e`
models that call raising with message `e`), the summary call, a failure
oracle for the `job_output_dir.mkdir` call performed after job creation but
outside the `try` (`mkdirFail`), a failure oracle for the `except` clause's
own `update_batch_job(status="failed")` write (`failUpdateFail`), and the
settings. -/
structure Env where
  api : ProxmoxAPI
  provider : VMData → Option ClusterData → Except String Artifacts
  fault : VMData → Option String
  saveFail : AnalysisResult → Option String
  summarize : List AnalysisResult → Option ClusterData → Except String String
  reportFail : Option String
  indivFail : Option String
  consolFail : Option String
  mkdirFail : Option String
  failUpdateFail : Option String
  settings : Settings

/-- The `for result in batch_results: await self.db.save_vm_analysis(...)`
loop: save results one by one; a raising save aborts the loop with the
exception, keeping the rows already inserted.  Returns the database, the
persist events emitted, and the exception if one was raised. -/
def saveResults (env : Env) (job_id : Nat) :
    List AnalysisResult → DB → DB × List Event × Option String
  | [], db => (db, [], none)
  | r :: rs, db =>
    match env.saveFail r with
    | some e => (db, [], some e)
    | none =>
      let rest := saveResults env job_id rs (save_vm_analysis db job_id r)
      (rest.1, Event.persistResult job_id r :: rest.2.1, rest.2.2)

/-- The per-group loop of `run_full_analysis`: for each group, fan out the
group's analysis calls and join (`process_batch`), extend `all_results`,
persist every kept result, bump `processed_count` by the number of kept
results and write one running progress update — then the next group.  A
raising save aborts with the exception (`all_results` already extended, the
progress counter not yet bumped).  Returns the database, the processed
count, the aggregated results, the events, and the exception if any. -/
def groupLoop (env : Env) (job_id : Nat) (cluster : Option ClusterData) :
    List (List VMData) → DB → Nat → List AnalysisResult →
    DB × Nat × List AnalysisResult × List Event × Option String
  | [], db, processed, acc => (db, processed, acc, [], none)
  | batch :: rest, db, processed, acc =>
    let batch_results := process_batch env.provider env.fault cluster batch
    let analyzeEvs := batch.map Event.analyzeReq
    let sr := saveResults env job_id batch_results db
    match sr.2.2 with
    | some e => (sr.1, processed, acc ++ batch_results, analyzeEvs ++ sr.2.1, some e)
    | none =>
      let processed1 := processed + batch_results.length
      let db2 := update_batch_job sr.1 job_id processed1 "running" none
      let gl :=
        groupLoop env job_id cluster rest db2 processed1 (acc ++ batch_results)
      (gl.1, gl.2.1, gl.2.2.1,
       analyzeEvs ++ sr.2.1 ++ [Event.updateJob job_id processed1 "running"] ++ gl.2.2.2.1,
       gl.2.2.2.2)

/-- Outcome of `run_full_analysis`: the `None` sentinel for an empty
inventory, the job id on success, or a re-raised exception (with the job id
whose record the `except` clause marked failed). -/
inductive RunOutcome
  | noWork
  | completed (job_id : Nat)
  | raised (job_id : Nat) (msg : String)
deriving DecidableEq, Repr

/-- The `except` clause of `run_full_analysis`: mark the job failed with the
current processed count and the error message, then re-raise.  The
`update_batch_job(status="failed")` write is itself a database operation
that can raise (`env.failUpdateFail`): if it does, the new exception
propagates out of the `except` clause, the job row keeps its last written
(still "running") state and no failure is recorded. -/
def failRun (env : Env) (job_id : Nat) (processed : Nat) (e : String) (db : DB) (fs : FS)
    (evs : List Event) : RunOutcome × DB × FS × List Event :=
  match env.failUpdateFail with
  | some e2 => (.raised job_id e2, db, fs, evs)
  | none =>
    (.raised job_id e,
     update_batch_job db job_id processed "failed" (some e),
     fs,
     evs ++ [Event.updateJob job_id processed "failed"])

/-- The part of `run_full_analysis`'s `try` block that follows the per-group
loop, as a function of the loop's output quintuple: individual outputs,
summary (fallible), report row, summary file, consolidated outputs, final
"completed" update; any raising step diverts to the `except` clause
(`failRun`). -/
def runTail (env : Env) (job_id : Nat) (cluster : Option ClusterData)
    (outDir : FsPath) (fs1 : FS)
    (lr : DB × Nat × List AnalysisResult × List Event × Option String) :
    RunOutcome × DB × FS × List Event :=
  match lr with
  | (db2, processed, all_results, evs, err) =>
    match err with
    | some e => failRun env job_id processed e db2 fs1 evs
    | none =>
      match env.indivFail with
      | some e => failRun env job_id processed e db2 fs1 evs
      | none =>
        let fs2 := save_individual_outputs all_results outDir fs1
        match env.summarize all_results cluster with
        | .error e => failRun env job_id processed e db2 fs2 evs
        | .ok summary =>
          match env.reportFail with
          | some e => failRun env job_id processed e db2 fs2 evs
          | none =>
            let db3 := save_infrastructure_report db2 job_id "summary" summary
            let evs1 := evs ++ [Event.persistReport job_id "summary"]
            let fs3 := applyOp fs2 (.write (outDir ++ ["infrastructure_summary.md"]) summary)
            match env.consolFail with
            | some e => failRun env job_id processed e db3 fs3 evs1
            | none =>
              let fs4 := generate_consolidated_outputs env.settings all_results outDir fs3
              (.completed job_id,
               update_batch_job db3 job_id processed "completed" none,
               fs4,
               evs1 ++ [Event.updateJob job_id processed "completed"])

/-- `BatchProcessor.run_full_analysis`, threading the database, filesystem
and event trace explicitly.  Steps, in source order: fetch cluster info
(never raises — the client swallows errors), fetch the inventory, return the
`None` sentinel if it is empty, create the job record, make the job output
directory (`job_output_dir.mkdir`, after job creation but OUTSIDE the `try`:
if it raises, the exception propagates at once with the freshly created job
row left "running"), then inside `try`: the per-group loop followed by
`runTail`; any exception inside the `try` diverts to the `except` clause
(`failRun`). -/
def run_full_analysis (env : Env) (db : DB) (fs : FS) :
    RunOutcome × DB × FS × List Event :=
  let cluster := get_cluster_info env.api
  let all_resources := get_all_resources env.api
  if all_resources.isEmpty then
    (.noWork, db, fs, [])
  else
    let (job_id, db1) := create_batch_job db all_resources.length
    let outDir := jobOutputDir env.settings job_id
    match env.mkdirFail with
    | some e => (.raised job_id e, db1, fs, [])
    | none =>
      let fs1 := applyOp fs (.mkdir outDir)
      runTail env job_id cluster outDir fs1
        (groupLoop env job_id cluster (chunks env.settings.batch_size all_resources) db1 0 [])

/-- No step of the run after job creation raises: every `save_vm_analysis`
succeeds, the individual-output writes, the report insert and the
consolidated-output writes succeed, the job-output-directory creation and
the `except` clause's failed-status write do not raise, and the summary
call returns a value. -/
def Env.noStepFailure (env : Env) : Prop :=
  (∀ r, env.saveFail r = none) ∧
  env.indivFail = none ∧
  env.reportFail = none ∧
  env.consolFail = none ∧
  env.mkdirFail = none ∧
  env.failUpdateFail = none ∧
  ∀ rs c, ∃ s, env.summarize rs c = .ok s

/-- The processed counts carried by the `updateJob` events of a trace, in
order. -/
def updateVals (evs : List Event) : List Nat :=
  evs.filterMap (fun ev =>
    match ev with
    | .updateJob _ p _ => some p
    | _ => none)

/-- The processed counts of the running (progress) `updateJob` events only. -/
def runningUpdateVals (evs : List Event) : List Nat :=
  evs.filterMap (fun ev =>
    match ev with
    | .updateJob _ p s => if s = "running" then some p else none
    | _ => none)

/-- The results carried by the `persistResult` events of a trace, in order. -/
def persistVals (evs : List Event) : List AnalysisResult :=
  evs.filterMap (fun ev =>
    match ev with
    | .persistResult _ r => some r
    | _ => none)

/-- The canonical event trace of the group loop when no save fails: per
group, all analysis calls of the group, then all persistence calls of the
group, then exactly one progress update carrying the cumulative count. -/
def groupEventsFrom (env : Env) (job_id : Nat) (cluster : Option ClusterData) :
    List (List VMData) → Nat → List Event
  | [], _ => []
  | batch :: rest, processed =>
    let batch_results := process_batch env.provider env.fault cluster batch
    batch.map Event.analyzeReq
    ++ batch_results.map (Event.persistResult job_id)
    ++ [Event.updateJob job_id (processed + batch_results.length) "running"]
    ++ groupEventsFrom env job_id cluster rest (processed + batch_results.length)

/-- `leadsWith s t`: `s` occurs at the start of `t` (character lists). -/
def leadsWith : List Char → List Char → Bool
  | [], _ => true
  | _ :: _, [] => false
  | a :: s, b :: t => a = b && leadsWith s t

/-- `hasSegment big small`: `small` occurs contiguously somewhere in `big`. -/
def hasSegment : List Char → List Char → Bool
  | [], small => small.isEmpty
  | b :: t, small => leadsWith small (b :: t) || hasSegment t small

/-- `strIn small big`: `small` is a contiguous substring of `big`. -/
def strIn (small big : String) : Prop :=
  hasSegment big.data small.data = true

instance instDecidableStrIn (small big : String) : Decidable (strIn small big) :=
  inferInstanceAs (Decidable (hasSegment big.data small.data = true))

/-- The value of the last `write` to path `p` in an operation sequence,
starting from `v`. -/
def lastWriteFrom (ops : List FsOp) (p : FsPath) (v : Option String) : Option String :=
  ops.foldl (fun acc op =>
    match op with
    | .write q c => if q = p then some c else acc
    | .mkdir _ => acc) v

/-- Whether directory `p` exists after an operation sequence, starting
from `v`. -/
def dirFrom (ops : List FsOp) (p : FsPath) (v : Bool) : Bool :=
  ops.foldl (fun acc op =>
    match op with
    | .mkdir q => if q = p then true else acc
    | .write _ _ => acc) v

/-- All filesystem operations of the ArtifactWriter for one
`(job_id, results)` pair, in execution order. -/
def writerOps (s : Settings) (job_id : Nat) (results : List AnalysisResult) : List FsOp :=
  individualOps (jobOutputDir s job_id) results
  ++ consolidatedOps s (jobOutputDir s job_id) results

/-- The row transformation applied by `update_batch_job` to the matching
row. -/
def updatedRow (processed : Nat) (status : String) (error : Option String)
    (row : BatchJobRow) : BatchJobRow :=
  if status = "completed" then
    { row with processed_vms := processed, status := status }
  else
    { row with processed_vms := processed, status := status, error_message := error }

/-- Outcome component of a run. -/
def runOutcome (env : Env) (db : DB) (fs : FS) : RunOutcome :=
  (run_full_analysis env db fs).1

/-- Database after a run. -/
def runDB (env : Env) (db : DB) (fs : FS) : DB :=
  (run_full_analysis env db fs).2.1

/-- Filesystem after a run. -/
def runFS (env : Env) (db : DB) (fs : FS) : FS :=
  (run_full_analysis env db fs).2.2.1

/-- Event trace of a run. -/
def runTrace (env : Env) (db : DB) (fs : FS) : List Event :=
  (run_full_analysis env db fs).2.2.2

/-- The results kept by a run: per group, the group's kept results, in group
order. -/
def keptResults (env : Env) : List AnalysisResult :=
  ((chunks env.settings.batch_size (get_all_resources env.api)).map
    (process_batch env.provider env.fault (get_cluster_info env.api))).flatten

/-- The number of results kept by a run. -/
def keptCount (env : Env) : Nat :=
  ((chunks env.settings.batch_size (get_all_resources env.api)).map
    (fun g => (process_batch env.provider env.fault (get_cluster_info env.api) g).length)).sum

/-- The resource-identifying header comment of one `site.yml` section. -/
def siteYmlHeader (r : AnalysisResult) : String :=
  "    # " ++ r.vm.vm_name ++ " (" ++ r.vm.vm_id ++ ")\n"

/-- Demonstration artifact set. -/
def artsDemo : Artifacts := {
  analysis := "A"
  security_review := some "S"
  optimization_recommendations := some "O"
  terraform_template := some "T"
  ansible_playbook := some "P" }

/-- Demonstration cluster: one node, one VM, one LXC. -/
def apiDemo : ProxmoxAPI := {
  nodes_get := .ok ["n1"]
  qemu_get := fun _ => .ok [{ vmid := 100, name := some "vm a", status := some "running" }]
  lxc_get := fun _ => .ok [{ vmid := 200, name := some "web/app 1", status := none }]
  qemu_config_get := fun _ _ => .ok "cfgq"
  lxc_config_get := fun _ _ => .ok "cfgl"
  cluster_status_get := .ok "st"
  cluster_resources_get := .ok "res" }

/-- The inventory entry built from `apiDemo`'s VM. -/
def vmDemoX : VMData :=
  { node := "n1", vm_id := "100", vm_name := "vm a", vm_type := "qemu",
    status := "running", config := "cfgq" }

/-- The inventory entry built from `apiDemo`'s LXC. -/
def vmDemoY : VMData :=
  { node := "n1", vm_id := "200", vm_name := "web/app 1", vm_type := "lxc",
    status := "unknown", config := "cfgl" }

/-- Environment with everything healthy. -/
def envDemo : Env := {
  api := apiDemo
  provider := fun _ _ => .ok artsDemo
  fault := fun _ => none
  saveFail := fun _ => none
  summarize := fun _ _ => .ok "SUMMARY"
  reportFail := none
  indivFail := none
  consolFail := none
  mkdirFail := none
  failUpdateFail := none
  settings := {} }

/-- Provider raising for the VM with id 100, succeeding otherwise. -/
def providerXY : VMData → Option ClusterData → Except String Artifacts :=
  fun vm _ => if vm.vm_id = "100" then .error "boom" else .ok artsDemo

/-- Environment in which resource X (id 100) fails analysis and Y succeeds. -/
def envXY : Env := {
  api := apiDemo
  provider := providerXY
  fault := fun _ => none
  saveFail := fun _ => none
  summarize := fun _ _ => .ok "SUMMARY"
  reportFail := none
  indivFail := none
  consolFail := none
  mkdirFail := none
  failUpdateFail := none
  settings := {} }

/-- Hypervisor API with every call raising (unreachable host). -/
def apiUnreachable : ProxmoxAPI := {
  nodes_get := .error "unreachable"
  qemu_get := fun _ => .error "unreachable"
  lxc_get := fun _ => .error "unreachable"
  qemu_config_get := fun _ _ => .error "unreachable"
  lxc_config_get := fun _ _ => .error "unreachable"
  cluster_status_get := .error "unreachable"
  cluster_resources_get := .error "unreachable" }

/-- Environment with an unreachable hypervisor. -/
def envUnreachable : Env := { envDemo with api := apiUnreachable }

/-- Hypervisor API with an empty cluster. -/
def apiEmpty : ProxmoxAPI := { apiDemo with nodes_get := .ok [] }

/-- Environment with an empty inventory. -/
def envEmpty : Env := { envDemo with api := apiEmpty }

/-- Environment in which creating the job output directory raises
(`job_output_dir.mkdir`, performed after job creation, outside the
`try`). -/
def envMkdirFail : Env := { envDemo with mkdirFail := some "mkdir: permission denied" }

/-- Environment in which the summary call raises and the `except` clause's
failed-status `update_batch_job` write itself raises as well. -/
def envFailWrite : Env := { envDemo with
  summarize := fun _ _ => .error "summary api down"
  failUpdateFail := some "database is locked" }

/-- The empty filesystem. -/
def fs0 : FS := { files := fun _ => none, dirs := fun _ => false }

/-- A filesystem with one pre-existing file and directory. -/
def fsPre : FS := {
  files := fun p => if p = ["old.txt"] then some "old" else none
  dirs := fun p => p = ["olddir"] }

/-- A demonstration result row with every artifact present. -/
def resDemo : AnalysisResult := {
  vm := vmDemoY
  analysis := some "A"
  security_review := some "S"
  optimization_recommendations := some "O"
  terraform_template := some "T"
  ansible_playbook := some "P" }

/-- A result whose config-management artifact is present and non-empty. -/
def resPlaybook : AnalysisResult := { vm := vmDemoY, ansible_playbook := some "PLAYBOOK_BODY_XYZ" }

theorem leadsWith_self_append : ∀ (s r : List Char), leadsWith s (s ++ r) = true
  | [], _ => rfl
  | a :: s, r => by simp [leadsWith, leadsWith_self_append s r]

theorem leadsWith_append_of (s : List Char) :
    ∀ (y x : List Char), leadsWith s y = true → leadsWith s (y ++ x) = true := by
  induction s with
  | nil => intro y x _; rfl
  | cons a s ih =>
    intro y x h
    cases y with
    | nil => simp [leadsWith] at h
    | cons b t =>
      simp only [leadsWith, Bool.and_eq_true, decide_eq_true_eq] at h
      simp only [List.cons_append, leadsWith, Bool.and_eq_true, decide_eq_true_eq]
      exact ⟨h.1, ih t x h.2⟩

theorem hasSegment_nil_small : ∀ (big : List Char), hasSegment big [] = true
  | [] => rfl
  | _ :: t => by simp [hasSegment, leadsWith]

theorem hasSegment_append_left (s : List Char) :
    ∀ (x y : List Char), hasSegment y s = true → hasSegment (x ++ y) s = true := by
  intro x
  induction x with
  | nil => intro y h; simpa using h
  | cons b t ih =>
    intro y h
    simp only [List.cons_append, hasSegment, Bool.or_eq_true]
    exact Or.inr (ih y h)

theorem hasSegment_append_right (s : List Char) :
    ∀ (y x : List Char), hasSegment y s = true → hasSegment (y ++ x) s = true := by
  intro y
  induction y with
  | nil =>
    intro x h
    simp only [hasSegment, List.isEmpty_iff] at h
    subst h
    simpa using hasSegment_nil_small x
  | cons b t ih =>
    intro x h
    simp only [hasSegment, Bool.or_eq_true] at h
    simp only [List.cons_append, hasSegment, Bool.or_eq_true]
    rcases h with h | h
    · exact Or.inl (leadsWith_append_of s (b :: t) x h)
    · exact Or.inr (ih x h)

theorem hasSegment_self_append : ∀ (s r : List Char), hasSegment (s ++ r) s = true
  | [], r => hasSegment_nil_small r
  | a :: s, r => by
    simp only [List.cons_append, hasSegment, Bool.or_eq_true]
    exact Or.inl (leadsWith_self_append (a :: s) r)

/-- `small` is a substring of `small ++ r`. -/
theorem strIn_append_self (small r : String) : strIn small (small ++ r) := by
  unfold strIn
  rw [String.data_append]
  exact hasSegment_self_append small.data r.data

/-- Substring containment is preserved by prefixing text on the left. -/
theorem strIn_of_append_left (small big x : String) (h : strIn small big) :
    strIn small (x ++ big) := by
  unfold strIn at h ⊢
  rw [String.data_append]
  exact hasSegment_append_left small.data x.data big.data h

/-- Substring containment is preserved by appending text on the right. -/
theorem strIn_of_append_right (small big x : String) (h : strIn small big) :
    strIn small (big ++ x) := by
  unfold strIn at h ⊢
  rw [String.data_append]
  exact hasSegment_append_right small.data big.data x.data h

theorem string_foldl_append (L : List String) :
    ∀ (a b : String), L.foldl (· ++ ·) (a ++ b) = a ++ L.foldl (· ++ ·) b := by
  induction L with
  | nil => intro a b; rfl
  | cons s L ih =>
    intro a b
    show L.foldl (· ++ ·) (a ++ b ++ s) = a ++ L.foldl (· ++ ·) (b ++ s)
    rw [String.append_assoc, ih a (b ++ s)]

theorem stringJoin_cons (s : String) (L : List String) :
    String.join (s :: L) = s ++ String.join L := by
  show L.foldl (· ++ ·) ("" ++ s) = s ++ L.foldl (· ++ ·) ""
  rw [String.empty_append, ← String.append_empty s, string_foldl_append L s ""]
  simp [String.append_empty]

/-- A member of a string list is a substring of the list's join. -/
theorem strIn_join_of_mem (s : String) :
    ∀ (L : List String), s ∈ L → strIn s (String.join L) := by
  intro L
  induction L with
  | nil => intro h; cases h
  | cons x L ih =>
    intro h
    rw [stringJoin_cons]
    rcases List.mem_cons.mp h with h | h
    · subst h; exact strIn_append_self s (String.join L)
    · exact strIn_of_append_left s (String.join L) x (ih h)

/-- The `content +=` accumulation loop shared by `mainTfContent` and
`siteYmlContent`, in closed form: starting text, then the join of the
sections of the kept results in list order. -/
theorem foldl_sections (p : AnalysisResult → Bool) (sec : AnalysisResult → String) :
    ∀ (results : List AnalysisResult) (acc : String),
      results.foldl (fun a r => if p r then a ++ sec r else a) acc
        = acc ++ String.join ((results.filter p).map sec) := by
  intro results
  induction results with
  | nil => intro acc; simp [String.join, String.append_empty]
  | cons r rs ih =>
    intro acc
    by_cases hp : p r
    · simp only [List.foldl_cons, hp, if_pos, List.filter_cons_of_pos, List.map_cons]
      rw [ih (acc ++ sec r), stringJoin_cons, String.append_assoc]
    · simp only [List.foldl_cons, hp, if_neg, List.filter_cons_of_neg, Bool.false_eq_true,
        not_false_eq_true]
      exact ih acc

/-- Closed form of the consolidated `main.tf` content: static preamble, then
one labeled section per kept result, joined in result-list order. -/
theorem mainTfContent_eq (results : List AnalysisResult) :
    mainTfContent results
      = tfPreamble ++ String.join ((results.filter hasTf).map tfSection) :=
  foldl_sections hasTf tfSection results tfPreamble

/-- Closed form of the consolidated `site.yml` content: static preamble, then
one header comment (and only the comment) per kept result, in order. -/
theorem siteYmlContent_eq (results : List AnalysisResult) :
    siteYmlContent results
      = siteYmlPreamble ++ String.join ((results.filter hasAnsible).map siteYmlSection) :=
  foldl_sections hasAnsible siteYmlSection results siteYmlPreamble

theorem FS.ext' {a b : FS} (hf : ∀ p, a.files p = b.files p)
    (hd : ∀ p, a.dirs p = b.dirs p) : a = b := by
  cases a
  cases b
  simp only [FS.mk.injEq]
  exact ⟨funext hf, funext hd⟩

theorem applyOps_files (p : FsPath) :
    ∀ (ops : List FsOp) (fs : FS),
      (applyOps fs ops).files p = lastWriteFrom ops p (fs.files p) := by
  intro ops
  induction ops with
  | nil => intro fs; rfl
  | cons op ops ih =>
    intro fs
    show (applyOps (applyOp fs op) ops).files p = _
    rw [ih (applyOp fs op)]
    cases op with
    | mkdir q => rfl
    | write q c =>
      show lastWriteFrom ops p (if p = q then some c else fs.files p)
        = lastWriteFrom ops p (if q = p then some c else fs.files p)
      by_cases h : p = q
      · subst h; simp
      · rw [if_neg h, if_neg (fun hq => h hq.symm)]

theorem applyOps_dirs (p : FsPath) :
    ∀ (ops : List FsOp) (fs : FS),
      (applyOps fs ops).dirs p = dirFrom ops p (fs.dirs p) := by
  intro ops
  induction ops with
  | nil => intro fs; rfl
  | cons op ops ih =>
    intro fs
    show (applyOps (applyOp fs op) ops).dirs p = _
    rw [ih (applyOp fs op)]
    cases op with
    | write q c => rfl
    | mkdir q =>
      show dirFrom ops p (if p = q then true else fs.dirs p)
        = dirFrom ops p (if q = p then true else fs.dirs p)
      by_cases h : p = q
      · subst h; simp
      · rw [if_neg h, if_neg (fun hq => h hq.symm)]

/-- Applied to any start value, `lastWriteFrom` either returns the start
value (no write to `p` in `ops`) or a fixed written value. -/
theorem lastWriteFrom_cases (p : FsPath) :
    ∀ (ops : List FsOp),
      (∀ v, lastWriteFrom ops p v = v) ∨
      (∃ c, ∀ v, lastWriteFrom ops p v = some c) := by
  intro ops
  induction ops with
  | nil => exact Or.inl (fun _ => rfl)
  | cons op ops ih =>
    cases op with
    | mkdir q =>
      rcases ih with h | ⟨c, h⟩
      · exact Or.inl (fun v => h v)
      · exact Or.inr ⟨c, fun v => h v⟩
    | write q c0 =>
      by_cases hq : q = p
      · subst hq
        rcases ih with h | ⟨c, h⟩
        · refine Or.inr ⟨c0, fun v => ?_⟩
          show lastWriteFrom ops q (if q = q then some c0 else v) = some c0
          rw [if_pos rfl]
          exact h (some c0)
        · exact Or.inr ⟨c, fun v => h _⟩
      · rcases ih with h | ⟨c, h⟩
        · refine Or.inl (fun v => ?_)
          show lastWriteFrom ops p (if q = p then some c0 else v) = v
          rw [if_neg hq]
          exact h v
        · exact Or.inr ⟨c, fun v => h _⟩

/-- Same case split for directories: the start value survives, or the
directory is created by `ops` regardless of the start value. -/
theorem dirFrom_cases (p : FsPath) :
    ∀ (ops : List FsOp),
      (∀ v, dirFrom ops p v = v) ∨ (∀ v, dirFrom ops p v = true) := by
  intro ops
  induction ops with
  | nil => exact Or.inl (fun _ => rfl)
  | cons op ops ih =>
    cases op with
    | write q c => exact ih.imp (fun h v => h v) (fun h v => h v)
    | mkdir q =>
      by_cases hq : q = p
      · subst hq
        rcases ih with h | h
        · refine Or.inr (fun v => ?_)
          show dirFrom ops q (if q = q then true else v) = true
          rw [if_pos rfl]
          exact h true
        · exact Or.inr (fun v => h _)
      · rcases ih with h | h
        · refine Or.inl (fun v => ?_)
          show dirFrom ops p (if q = p then true else v) = v
          rw [if_neg hq]
          exact h v
        · exact Or.inr (fun v => h _)

/-- Replaying the same operation sequence is a no-op: the filesystem after
two applications equals the filesystem after one. -/
theorem applyOps_idem (ops : List FsOp) (fs : FS) :
    applyOps (applyOps fs ops) ops = applyOps fs ops := by
  refine FS.ext' (fun p => ?_) (fun p => ?_)
  · rw [applyOps_files p ops, applyOps_files p ops fs]
    rcases lastWriteFrom_cases p ops with h | ⟨c, h⟩
    · rw [h, h]
    · rw [h, h]
  · rw [applyOps_dirs p ops, applyOps_dirs p ops fs]
    rcases dirFrom_cases p ops with h | h
    · rw [h, h]
    · rw [h, h]

/-- An operation sequence never deletes a file: an existing file either
survives unchanged or is overwritten, but remains present. -/
theorem applyOps_files_mono (ops : List FsOp) (fs : FS) (p : FsPath) (v : String)
    (h : fs.files p = some v) : ∃ w, (applyOps fs ops).files p = some w := by
  rw [applyOps_files p ops fs]
  rcases lastWriteFrom_cases p ops with hc | ⟨c, hc⟩
  · exact ⟨v, by rw [h, hc]⟩
  · exact ⟨c, hc _⟩

/-- An operation sequence never removes a directory. -/
theorem applyOps_dirs_mono (ops : List FsOp) (fs : FS) (p : FsPath)
    (h : fs.dirs p = true) : (applyOps fs ops).dirs p = true := by
  rw [applyOps_dirs p ops fs]
  rcases dirFrom_cases p ops with hc | hc
  · rw [h, hc]
  · exact hc _

/-- The ArtifactWriter is `applyOps` of its operation list. -/
theorem artifactWriter_eq (s : Settings) (job_id : Nat)
    (results : List AnalysisResult) (fs : FS) :
    artifactWriter s job_id results fs = applyOps fs (writerOps s job_id results) := by
  unfold artifactWriter generate_consolidated_outputs save_individual_outputs writerOps applyOps
  rw [List.foldl_append]

theorem chunksAux_nil (fuel b : Nat) : chunksAux fuel b [] = [] := by
  cases fuel <;> rfl

theorem chunksAux_flatten (b : Nat) (hb : 0 < b) :
    ∀ (fuel : Nat) (l : List VMData), l.length ≤ fuel →
      (chunksAux fuel b l).flatten = l := by
  intro fuel
  induction fuel with
  | zero =>
    intro l hl
    rw [Nat.le_zero, List.length_eq_zero] at hl
    subst hl
    rfl
  | succ fuel ih =>
    intro l hl
    cases l with
    | nil => rfl
    | cons a t =>
      show (List.take b (a :: t) :: chunksAux fuel b (List.drop b (a :: t))).flatten = a :: t
      rw [List.flatten_cons, ih (List.drop b (a :: t)) ?_, List.take_append_drop]
      rw [List.length_drop]
      simp only [List.length_cons] at hl ⊢
      omega

/-- The groups concatenate back to the inventory, in order. -/
theorem chunks_flatten (b : Nat) (hb : 0 < b) (l : List VMData) :
    (chunks b l).flatten = l :=
  chunksAux_flatten b hb l.length l (Nat.le_refl _)

theorem chunksAux_length (b : Nat) (hb : 0 < b) :
    ∀ (fuel : Nat) (l : List VMData), l.length ≤ fuel →
      (chunksAux fuel b l).length = (l.length + b - 1) / b := by
  intro fuel
  induction fuel with
  | zero =>
    intro l hl
    rw [Nat.le_zero, List.length_eq_zero] at hl
    subst hl
    show 0 = (0 + b - 1) / b
    rw [Nat.zero_add]
    exact (Nat.div_eq_of_lt (by omega)).symm
  | succ fuel ih =>
    intro l hl
    cases l with
    | nil =>
      show 0 = (0 + b - 1) / b
      rw [Nat.zero_add]
      exact (Nat.div_eq_of_lt (by omega)).symm
    | cons a t =>
      have hdrop : (List.drop b (a :: t)).length = t.length + 1 - b := by
        rw [List.length_drop]
        simp
      have hrec : (chunksAux fuel b (List.drop b (a :: t))).length
          = ((List.drop b (a :: t)).length + b - 1) / b :=
        ih (List.drop b (a :: t))
          (by rw [hdrop]; simp only [List.length_cons] at hl; omega)
      show (List.take b (a :: t) :: chunksAux fuel b (List.drop b (a :: t))).length
        = ((a :: t).length + b - 1) / b
      simp only [List.length_cons, hrec, hdrop]
      by_cases hcase : t.length + 1 ≤ b
      · have h1 : t.length + 1 - b = 0 := by omega
        rw [h1]
        have h2 : (0 + b - 1) / b = 0 := Nat.div_eq_of_lt (by omega)
        rw [h2]
        have h3 : (t.length + 1 + b - 1) / b = 1 :=
          Nat.div_eq_of_lt_le (by omega) (by omega)
        rw [h3]
      · have h1 : t.length + 1 - b + b - 1 = t.length := by omega
        have h2 : t.length + 1 + b - 1 = t.length + b := by omega
        rw [h1, h2, Nat.add_div_right _ hb]

theorem chunks_length (b : Nat) (hb : 0 < b) (l : List VMData) :
    (chunks b l).length = (l.length + b - 1) / b :=
  chunksAux_length b hb l.length l (Nat.le_refl _)

theorem chunksAux_mem (b : Nat) (hb : 0 < b) :
    ∀ (fuel : Nat) (l : List VMData) (g : List VMData),
      g ∈ chunksAux fuel b l → g ≠ [] ∧ g.length ≤ b := by
  intro fuel
  induction fuel with
  | zero => intro l g hg; cases hg
  | succ fuel ih =>
    intro l g hg
    cases l with
    | nil => cases hg
    | cons a t =>
      rcases List.mem_cons.mp hg with h | h
      · subst h
        constructor
        · have : (List.take b (a :: t)).length = min b (a :: t).length :=
            List.length_take b (a :: t)
          intro hnil
          rw [hnil] at this
          simp only [List.length_nil, List.length_cons] at this
          omega
        · have : (List.take b (a :: t)).length = min b (a :: t).length :=
            List.length_take b (a :: t)
          omega
      · exact ih (List.drop b (a :: t)) g h

/-- Every group is non-empty and no longer than the batch size. -/
theorem chunks_mem (b : Nat) (hb : 0 < b) (l : List VMData) (g : List VMData)
    (hg : g ∈ chunks b l) : g ≠ [] ∧ g.length ≤ b :=
  chunksAux_mem b hb l.length l g hg

theorem chunksAux_ne_nil (fuel b : Nat) (l : List VMData)
    (h : chunksAux fuel b l ≠ []) : l ≠ [] := by
  intro hl
  subst hl
  exact h (chunksAux_nil fuel b)

theorem chunksAux_dropLast (b : Nat) (_hb : 0 < b) :
    ∀ (fuel : Nat) (l : List VMData) (g : List VMData),
      g ∈ (chunksAux fuel b l).dropLast → g.length = b := by
  intro fuel
  induction fuel with
  | zero => intro l g hg; cases hg
  | succ fuel ih =>
    intro l g hg
    cases l with
    | nil => cases hg
    | cons a t =>
      have hrepr : chunksAux (fuel + 1) b (a :: t)
          = List.take b (a :: t) :: chunksAux fuel b (List.drop b (a :: t)) := rfl
      rw [hrepr] at hg
      by_cases hrest : chunksAux fuel b (List.drop b (a :: t)) = []
      · rw [hrest] at hg
        cases hg
      · rw [List.dropLast_cons_of_ne_nil hrest] at hg
        rcases List.mem_cons.mp hg with h | h
        · subst h
          have hne : List.drop b (a :: t) ≠ [] := chunksAux_ne_nil fuel b _ hrest
          have hlen : (List.drop b (a :: t)).length = (a :: t).length - b :=
            List.length_drop b (a :: t)
          have hpos : 0 < (List.drop b (a :: t)).length := List.length_pos.mpr hne
          have : (List.take b (a :: t)).length = min b (a :: t).length :=
            List.length_take b (a :: t)
          omega
        · exact ih (List.drop b (a :: t)) g h

/-- Every group except possibly the last has exactly the batch size. -/
theorem chunks_dropLast (b : Nat) (hb : 0 < b) (l : List VMData) (g : List VMData)
    (hg : g ∈ (chunks b l).dropLast) : g.length = b :=
  chunksAux_dropLast b hb l.length l g hg

/-- The group lengths sum to the inventory size. -/
theorem chunks_sum_length (b : Nat) (hb : 0 < b) (l : List VMData) :
    ((chunks b l).map List.length).sum = l.length := by
  rw [← List.length_flatten, chunks_flatten b hb l]

theorem updatedRow_total (processed : Nat) (status : String) (error : Option String)
    (row : BatchJobRow) : (updatedRow processed status error row).total_vms = row.total_vms := by
  unfold updatedRow
  by_cases h : status = "completed" <;> simp [h]

theorem updatedRow_status (p : Nat) (s : String) (e : Option String) (row : BatchJobRow) :
    (updatedRow p s e row).status = s := by
  unfold updatedRow
  by_cases h : s = "completed" <;> simp [h]

theorem updatedRow_processed (p : Nat) (s : String) (e : Option String) (row : BatchJobRow) :
    (updatedRow p s e row).processed_vms = p := by
  unfold updatedRow
  by_cases h : s = "completed" <;> simp [h]

theorem updatedRow_error_of_ne (p : Nat) (s : String) (e : Option String) (row : BatchJobRow)
    (h : s ≠ "completed") : (updatedRow p s e row).error_message = e := by
  unfold updatedRow
  simp [h]

theorem update_batch_job_jobs (db : DB) (j : Nat) (processed : Nat)
    (status : String) (error : Option String) :
    (update_batch_job db j processed status error).jobs
      = db.jobs.map (fun e => if e.1 = j then (e.1, updatedRow processed status error e.2) else e) := by
  show db.jobs.map _ = db.jobs.map _
  apply List.map_congr_left
  intro e _
  by_cases h : e.1 = j
  · simp only [h, if_pos]
    unfold updatedRow
    by_cases hs : status = "completed" <;> simp [hs]
  · simp [h]

theorem lookup_map_if (j : Nat) (f : BatchJobRow → BatchJobRow) :
    ∀ (l : List (Nat × BatchJobRow)),
      List.lookup j (l.map (fun e => if e.1 = j then (e.1, f e.2) else e))
        = (List.lookup j l).map f := by
  intro l
  induction l with
  | nil => rfl
  | cons e t ih =>
    by_cases h : e.1 = j
    · simp only [List.map_cons, h, if_pos]
      cases e with
      | mk k v =>
        simp only at h
        subst h
        simp [List.lookup_cons, ih]
    · simp only [List.map_cons, h, if_neg]
      cases e with
      | mk k v =>
        simp only at h
        have hbeq : (j == k) = false := by
          rw [beq_eq_false_iff_ne]
          exact fun hjk => h hjk.symm
        simp [List.lookup_cons, hbeq, ih]

/-- `update_batch_job` transforms the looked-up row pointwise. -/
theorem lookup_update_batch_job (db : DB) (j : Nat) (processed : Nat)
    (status : String) (error : Option String) :
    List.lookup j (update_batch_job db j processed status error).jobs
      = (List.lookup j db.jobs).map (updatedRow processed status error) := by
  rw [update_batch_job_jobs]
  exact lookup_map_if j _ db.jobs

theorem saveResults_cons_fail (env : Env) (j : Nat) (r : AnalysisResult)
    (rs : List AnalysisResult) (db : DB) (e : String) (h : env.saveFail r = some e) :
    saveResults env j (r :: rs) db = (db, [], some e) := by
  simp [saveResults, h]

theorem saveResults_cons_ok (env : Env) (j : Nat) (r : AnalysisResult)
    (rs : List AnalysisResult) (db : DB) (h : env.saveFail r = none) :
    saveResults env j (r :: rs) db
      = ((saveResults env j rs (save_vm_analysis db j r)).1,
         Event.persistResult j r :: (saveResults env j rs (save_vm_analysis db j r)).2.1,
         (saveResults env j rs (save_vm_analysis db j r)).2.2) := by
  simp [saveResults, h]

theorem saveResults_jobs (env : Env) (j : Nat) :
    ∀ (rs : List AnalysisResult) (db : DB), (saveResults env j rs db).1.jobs = db.jobs := by
  intro rs
  induction rs with
  | nil => intro db; rfl
  | cons r rs ih =>
    intro db
    cases h : env.saveFail r with
    | some e => rw [saveResults_cons_fail env j r rs db e h]
    | none => rw [saveResults_cons_ok env j r rs db h]; exact ih (save_vm_analysis db j r)

theorem saveResults_noFail (env : Env) (j : Nat) (hsf : ∀ r, env.saveFail r = none) :
    ∀ (rs : List AnalysisResult) (db : DB),
      (saveResults env j rs db).2.1 = rs.map (Event.persistResult j)
      ∧ (saveResults env j rs db).2.2 = none := by
  intro rs
  induction rs with
  | nil => intro db; exact ⟨rfl, rfl⟩
  | cons r rs ih =>
    intro db
    rw [saveResults_cons_ok env j r rs db (hsf r)]
    have h := ih (save_vm_analysis db j r)
    exact ⟨by simp [h.1], h.2⟩

theorem saveResults_ok (env : Env) (j : Nat) :
    ∀ (rs : List AnalysisResult) (db : DB),
      (saveResults env j rs db).2.2 = none →
      (saveResults env j rs db).2.1 = rs.map (Event.persistResult j) := by
  intro rs
  induction rs with
  | nil => intro db _; rfl
  | cons r rs ih =>
    intro db h
    cases hr : env.saveFail r with
    | some e =>
      rw [saveResults_cons_fail env j r rs db e hr] at h
      cases h
    | none =>
      rw [saveResults_cons_ok env j r rs db hr] at h ⊢
      simp only [List.map_cons]
      rw [ih (save_vm_analysis db j r) h]

theorem groupLoop_cons_fail (env : Env) (j : Nat) (cluster : Option ClusterData)
    (batch : List VMData) (rest : List (List VMData)) (db : DB) (processed : Nat)
    (acc : List AnalysisResult) (e : String)
    (h : (saveResults env j (process_batch env.provider env.fault cluster batch) db).2.2 = some e) :
    groupLoop env j cluster (batch :: rest) db processed acc
      = ((saveResults env j (process_batch env.provider env.fault cluster batch) db).1,
         processed,
         acc ++ process_batch env.provider env.fault cluster batch,
         batch.map Event.analyzeReq
           ++ (saveResults env j (process_batch env.provider env.fault cluster batch) db).2.1,
         some e) := by
  simp [groupLoop, h]

theorem groupLoop_cons_ok (env : Env) (j : Nat) (cluster : Option ClusterData)
    (batch : List VMData) (rest : List (List VMData)) (db : DB) (processed : Nat)
    (acc : List AnalysisResult)
    (h : (saveResults env j (process_batch env.provider env.fault cluster batch) db).2.2 = none) :
    groupLoop env j cluster (batch :: rest) db processed acc
      = ((groupLoop env j cluster rest
            (update_batch_job
              (saveResults env j (process_batch env.provider env.fault cluster batch) db).1 j
              (processed + (process_batch env.provider env.fault cluster batch).length)
              "running" none)
            (processed + (process_batch env.provider env.fault cluster batch).length)
            (acc ++ process_batch env.provider env.fault cluster batch)).1,
         (groupLoop env j cluster rest
            (update_batch_job
              (saveResults env j (process_batch env.provider env.fault cluster batch) db).1 j
              (processed + (process_batch env.provider env.fault cluster batch).length)
              "running" none)
            (processed + (process_batch env.provider env.fault cluster batch).length)
            (acc ++ process_batch env.provider env.fault cluster batch)).2.1,
         (groupLoop env j cluster rest
            (update_batch_job
              (saveResults env j (process_batch env.provider env.fault cluster batch) db).1 j
              (processed + (process_batch env.provider env.fault cluster batch).length)
              "running" none)
            (processed + (process_batch env.provider env.fault cluster batch).length)
            (acc ++ process_batch env.provider env.fault cluster batch)).2.2.1,
         batch.map Event.analyzeReq
           ++ (saveResults env j (process_batch env.provider env.fault cluster batch) db).2.1
           ++ [Event.updateJob j
                (processed + (process_batch env.provider env.fault cluster batch).length)
                "running"]
           ++ (groupLoop env j cluster rest
                (update_batch_job
                  (saveResults env j (process_batch env.provider env.fault cluster batch) db).1 j
                  (processed + (process_batch env.provider env.fault cluster batch).length)
                  "running" none)
                (processed + (process_batch env.provider env.fault cluster batch).length)
                (acc ++ process_batch env.provider env.fault cluster batch)).2.2.2.1,
         (groupLoop env j cluster rest
            (update_batch_job
              (saveResults env j (process_batch env.provider env.fault cluster batch) db).1 j
              (processed + (process_batch env.provider env.fault cluster batch).length)
              "running" none)
            (processed + (process_batch env.provider env.fault cluster batch).length)
            (acc ++ process_batch env.provider env.fault cluster batch)).2.2.2.2) := by
  simp [groupLoop, h]

theorem updateVals_append (a b : List Event) :
    updateVals (a ++ b) = updateVals a ++ updateVals b :=
  List.filterMap_append a b _

theorem persistVals_append (a b : List Event) :
    persistVals (a ++ b) = persistVals a ++ persistVals b :=
  List.filterMap_append a b _

theorem runningUpdateVals_append (a b : List Event) :
    runningUpdateVals (a ++ b) = runningUpdateVals a ++ runningUpdateVals b :=
  List.filterMap_append a b _

theorem updateVals_analyze (batch : List VMData) :
    updateVals (batch.map Event.analyzeReq) = [] := by
  rw [updateVals, List.filterMap_map]
  exact List.filterMap_eq_nil_iff.mpr (fun a _ => rfl)

theorem updateVals_persist (j : Nat) (rs : List AnalysisResult) :
    updateVals (rs.map (Event.persistResult j)) = [] := by
  rw [updateVals, List.filterMap_map]
  exact List.filterMap_eq_nil_iff.mpr (fun a _ => rfl)

theorem persistVals_analyze (batch : List VMData) :
    persistVals (batch.map Event.analyzeReq) = [] := by
  rw [persistVals, List.filterMap_map]
  exact List.filterMap_eq_nil_iff.mpr (fun a _ => rfl)

theorem persistVals_persist (j : Nat) (rs : List AnalysisResult) :
    persistVals (rs.map (Event.persistResult j)) = rs := by
  rw [persistVals, List.filterMap_map]
  induction rs with
  | nil => rfl
  | cons r rs ih => simp only [List.filterMap_cons]; exact congrArg (r :: ·) ih

theorem runningUpdateVals_analyze (batch : List VMData) :
    runningUpdateVals (batch.map Event.analyzeReq) = [] := by
  rw [runningUpdateVals, List.filterMap_map]
  exact List.filterMap_eq_nil_iff.mpr (fun a _ => rfl)

theorem runningUpdateVals_persist (j : Nat) (rs : List AnalysisResult) :
    runningUpdateVals (rs.map (Event.persistResult j)) = [] := by
  rw [runningUpdateVals, List.filterMap_map]
  exact List.filterMap_eq_nil_iff.mpr (fun a _ => rfl)

/-- Every event emitted by the save loop is a persistence event. -/
theorem saveResults_events_persist (env : Env) (j : Nat) :
    ∀ (rs : List AnalysisResult) (db : DB),
      ∃ rs' : List AnalysisResult,
        (saveResults env j rs db).2.1 = rs'.map (Event.persistResult j) := by
  intro rs
  induction rs with
  | nil => intro db; exact ⟨[], rfl⟩
  | cons r rs ih =>
    intro db
    cases h : env.saveFail r with
    | some e => rw [saveResults_cons_fail env j r rs db e h]; exact ⟨[], rfl⟩
    | none =>
      rw [saveResults_cons_ok env j r rs db h]
      obtain ⟨rs', hrs'⟩ := ih (save_vm_analysis db j r)
      exact ⟨r :: rs', by simp [hrs']⟩

theorem updateVals_saveResults (env : Env) (j : Nat) (rs : List AnalysisResult) (db : DB) :
    updateVals (saveResults env j rs db).2.1 = [] := by
  obtain ⟨rs', h⟩ := saveResults_events_persist env j rs db
  rw [h, updateVals_persist]

theorem runningUpdateVals_saveResults (env : Env) (j : Nat) (rs : List AnalysisResult) (db : DB) :
    runningUpdateVals (saveResults env j rs db).2.1 = [] := by
  obtain ⟨rs', h⟩ := saveResults_events_persist env j rs db
  rw [h, runningUpdateVals_persist]

/-- A kept group is never larger than the submitted group:
`process_batch` only drops entries. -/
theorem process_batch_length_le (provider : VMData → Option ClusterData → Except String Artifacts)
    (fault : VMData → Option String) (cluster : Option ClusterData) (vms : List VMData) :
    (process_batch provider fault cluster vms).length ≤ vms.length := by
  calc (process_batch provider fault cluster vms).length
      ≤ (gatherBatch provider fault cluster vms).length :=
        List.length_filterMap_le _ _
    _ = vms.length := List.length_map _ _

/-- Progress invariants of the group loop, for an arbitrary environment
(failures included): the processed counter only grows, is bounded by the
number of submitted resources, the progress updates form a non-decreasing
chain starting at the initial count and bounded likewise, and the final
counter is the last written update (or the initial count when no update was
written). -/
theorem groupLoop_progress (env : Env) (j : Nat) (cluster : Option ClusterData) :
    ∀ (groups : List (List VMData)) (db : DB) (processed : Nat) (acc : List AnalysisResult),
      processed ≤ (groupLoop env j cluster groups db processed acc).2.1
      ∧ (groupLoop env j cluster groups db processed acc).2.1
          ≤ processed + (groups.map List.length).sum
      ∧ List.Chain' (· ≤ ·)
          (processed :: updateVals (groupLoop env j cluster groups db processed acc).2.2.2.1)
      ∧ (∀ v ∈ updateVals (groupLoop env j cluster groups db processed acc).2.2.2.1,
          v ≤ processed + (groups.map List.length).sum)
      ∧ ((updateVals (groupLoop env j cluster groups db processed acc).2.2.2.1).getLast?
           = some (groupLoop env j cluster groups db processed acc).2.1
         ∨ (updateVals (groupLoop env j cluster groups db processed acc).2.2.2.1 = []
            ∧ (groupLoop env j cluster groups db processed acc).2.1 = processed)) := by
  intro groups
  induction groups with
  | nil =>
    intro db processed acc
    refine ⟨Nat.le_refl _, Nat.le_add_right _ _, ?_, ?_, Or.inr ⟨rfl, rfl⟩⟩
    · exact List.chain'_singleton processed
    · intro v hv
      exact absurd hv (List.not_mem_nil v)
  | cons batch rest ih =>
    intro db processed acc
    cases hsr : (saveResults env j (process_batch env.provider env.fault cluster batch) db).2.2 with
    | some e =>
      rw [groupLoop_cons_fail env j cluster batch rest db processed acc e hsr]
      dsimp only
      refine ⟨Nat.le_refl _, Nat.le_add_right _ _, ?_, ?_, Or.inr ⟨?_, rfl⟩⟩
      · rw [updateVals_append, updateVals_analyze, updateVals_saveResults]
        exact List.chain'_singleton processed
      · intro v hv
        rw [updateVals_append, updateVals_analyze, updateVals_saveResults] at hv
        exact absurd hv (List.not_mem_nil v)
      · rw [updateVals_append, updateVals_analyze, updateVals_saveResults]
        rfl
    | none =>
      rw [groupLoop_cons_ok env j cluster batch rest db processed acc hsr]
      dsimp only
      have hlen : (process_batch env.provider env.fault cluster batch).length ≤ batch.length :=
        process_batch_length_le env.provider env.fault cluster batch
      obtain ⟨ih1, ih2, ih3, ih4, ih5⟩ :=
        ih (update_batch_job
              (saveResults env j (process_batch env.provider env.fault cluster batch) db).1 j
              (processed + (process_batch env.provider env.fault cluster batch).length)
              "running" none)
           (processed + (process_batch env.provider env.fault cluster batch).length)
           (acc ++ process_batch env.provider env.fault cluster batch)
      have hev : updateVals (batch.map Event.analyzeReq
            ++ (saveResults env j (process_batch env.provider env.fault cluster batch) db).2.1
            ++ [Event.updateJob j
                 (processed + (process_batch env.provider env.fault cluster batch).length)
                 "running"]
            ++ (groupLoop env j cluster rest
                 (update_batch_job
                   (saveResults env j (process_batch env.provider env.fault cluster batch) db).1 j
                   (processed + (process_batch env.provider env.fault cluster batch).length)
                   "running" none)
                 (processed + (process_batch env.provider env.fault cluster batch).length)
                 (acc ++ process_batch env.provider env.fault cluster batch)).2.2.2.1)
          = (processed + (process_batch env.provider env.fault cluster batch).length)
            :: updateVals (groupLoop env j cluster rest
                 (update_batch_job
                   (saveResults env j (process_batch env.provider env.fault cluster batch) db).1 j
                   (processed + (process_batch env.provider env.fault cluster batch).length)
                   "running" none)
                 (processed + (process_batch env.provider env.fault cluster batch).length)
                 (acc ++ process_batch env.provider env.fault cluster batch)).2.2.2.1 := by
        rw [updateVals_append, updateVals_append, updateVals_append,
          updateVals_analyze, updateVals_saveResults]
        rfl
      refine ⟨?_, ?_, ?_, ?_, ?_⟩
      · exact Nat.le_trans (Nat.le_add_right _ _) ih1
      · simp only [List.map_cons, List.sum_cons]
        omega
      · rw [hev]
        exact List.chain'_cons.mpr ⟨Nat.le_add_right _ _, ih3⟩
      · intro v hv
        rw [hev] at hv
        simp only [List.map_cons, List.sum_cons]
        rcases List.mem_cons.mp hv with h | h
        · omega
        · have := ih4 v h
          omega
      · rw [hev]
        rcases ih5 with h | ⟨h1, h2⟩
        · refine Or.inl ?_
          cases hnil : updateVals (groupLoop env j cluster rest
              (update_batch_job
                (saveResults env j (process_batch env.provider env.fault cluster batch) db).1 j
                (processed + (process_batch env.provider env.fault cluster batch).length)
                "running" none)
              (processed + (process_batch env.provider env.fault cluster batch).length)
              (acc ++ process_batch env.provider env.fault cluster batch)).2.2.2.1 with
          | nil =>
            rw [hnil] at h
            simp at h
          | cons x xs =>
            rw [hnil] at h
            rw [List.getLast?_cons_cons]
            exact h
        · refine Or.inl ?_
          rw [h1, h2]
          simp

/-- When the loop finishes without a raising save, the processed counter is
the total number of kept results, the aggregate extends the accumulator by
the kept results of all groups in group order, and exactly those results
were persisted, in order. -/
theorem groupLoop_ok (env : Env) (j : Nat) (cluster : Option ClusterData) :
    ∀ (groups : List (List VMData)) (db : DB) (processed : Nat) (acc : List AnalysisResult),
      (groupLoop env j cluster groups db processed acc).2.2.2.2 = none →
      (groupLoop env j cluster groups db processed acc).2.1
          = processed
            + ((groups.map (fun g => (process_batch env.provider env.fault cluster g).length)).sum)
      ∧ (groupLoop env j cluster groups db processed acc).2.2.1
          = acc ++ (groups.map (process_batch env.provider env.fault cluster)).flatten
      ∧ persistVals (groupLoop env j cluster groups db processed acc).2.2.2.1
          = (groups.map (process_batch env.provider env.fault cluster)).flatten := by
  intro groups
  induction groups with
  | nil =>
    intro db processed acc _
    refine ⟨by simp [groupLoop], by simp [groupLoop], rfl⟩
  | cons batch rest ih =>
    intro db processed acc herr
    cases hsr : (saveResults env j (process_batch env.provider env.fault cluster batch) db).2.2 with
    | some e =>
      rw [groupLoop_cons_fail env j cluster batch rest db processed acc e hsr] at herr
      cases herr
    | none =>
      rw [groupLoop_cons_ok env j cluster batch rest db processed acc hsr] at herr ⊢
      dsimp only at herr ⊢
      obtain ⟨ih1, ih2, ih3⟩ :=
        ih (update_batch_job
              (saveResults env j (process_batch env.provider env.fault cluster batch) db).1 j
              (processed + (process_batch env.provider env.fault cluster batch).length)
              "running" none)
           (processed + (process_batch env.provider env.fault cluster batch).length)
           (acc ++ process_batch env.provider env.fault cluster batch) herr
      have hsave : (saveResults env j (process_batch env.provider env.fault cluster batch) db).2.1
          = (process_batch env.provider env.fault cluster batch).map (Event.persistResult j) :=
        saveResults_ok env j _ db hsr
      refine ⟨?_, ?_, ?_⟩
      · rw [ih1]
        simp only [List.map_cons, List.sum_cons]
        omega
      · rw [ih2]
        simp only [List.map_cons, List.flatten_cons, List.append_assoc]
      · rw [persistVals_append, persistVals_append, persistVals_append,
          persistVals_analyze, hsave, persistVals_persist, ih3]
        simp [persistVals]

/-- With no raising save, the loop's trace is the canonical per-group trace
and the loop reports no error. -/
theorem groupLoop_noFail (env : Env) (j : Nat) (cluster : Option ClusterData)
    (hsf : ∀ r, env.saveFail r = none) :
    ∀ (groups : List (List VMData)) (db : DB) (processed : Nat) (acc : List AnalysisResult),
      (groupLoop env j cluster groups db processed acc).2.2.2.1
        = groupEventsFrom env j cluster groups processed
      ∧ (groupLoop env j cluster groups db processed acc).2.2.2.2 = none := by
  intro groups
  induction groups with
  | nil => intro db processed acc; exact ⟨rfl, rfl⟩
  | cons batch rest ih =>
    intro db processed acc
    have hsrv := saveResults_noFail env j hsf (process_batch env.provider env.fault cluster batch) db
    rw [groupLoop_cons_ok env j cluster batch rest db processed acc hsrv.2]
    dsimp only
    obtain ⟨ih1, ih2⟩ :=
      ih (update_batch_job
            (saveResults env j (process_batch env.provider env.fault cluster batch) db).1 j
            (processed + (process_batch env.provider env.fault cluster batch).length)
            "running" none)
         (processed + (process_batch env.provider env.fault cluster batch).length)
         (acc ++ process_batch env.provider env.fault cluster batch)
    refine ⟨?_, ih2⟩
    rw [ih1, hsrv.1]
    simp [groupEventsFrom]

/-- The loop keeps the job row present, with its original total; a clean
error column stays clean (progress updates write `error_message = NULL`). -/
theorem groupLoop_jobs (env : Env) (j : Nat) (cluster : Option ClusterData) :
    ∀ (groups : List (List VMData)) (db : DB) (processed : Nat) (acc : List AnalysisResult)
      (row : BatchJobRow), List.lookup j db.jobs = some row →
      ∃ row', List.lookup j (groupLoop env j cluster groups db processed acc).1.jobs = some row'
        ∧ row'.total_vms = row.total_vms
        ∧ (row.error_message = none → row'.error_message = none)
        ∧ (row.processed_vms ≤ processed →
            row'.processed_vms ≤ processed + (groups.map List.length).sum) := by
  intro groups
  induction groups with
  | nil =>
    intro db processed acc row hrow
    exact ⟨row, hrow, rfl, fun h => h, fun h => by simpa using h⟩
  | cons batch rest ih =>
    intro db processed acc row hrow
    cases hsr : (saveResults env j (process_batch env.provider env.fault cluster batch) db).2.2 with
    | some e =>
      rw [groupLoop_cons_fail env j cluster batch rest db processed acc e hsr]
      dsimp only
      rw [saveResults_jobs env j _ db]
      refine ⟨row, hrow, rfl, fun h => h, fun h => ?_⟩
      exact Nat.le_trans h (Nat.le_add_right _ _)
    | none =>
      rw [groupLoop_cons_ok env j cluster batch rest db processed acc hsr]
      dsimp only
      have hlook : List.lookup j
          (update_batch_job
            (saveResults env j (process_batch env.provider env.fault cluster batch) db).1 j
            (processed + (process_batch env.provider env.fault cluster batch).length)
            "running" none).jobs
          = some (updatedRow (processed + (process_batch env.provider env.fault cluster batch).length)
              "running" none row) := by
        rw [lookup_update_batch_job, saveResults_jobs env j _ db, hrow]
        rfl
      obtain ⟨row', hrow', htot, herr, hproc⟩ :=
        ih (update_batch_job
              (saveResults env j (process_batch env.provider env.fault cluster batch) db).1 j
              (processed + (process_batch env.provider env.fault cluster batch).length)
              "running" none)
           (processed + (process_batch env.provider env.fault cluster batch).length)
           (acc ++ process_batch env.provider env.fault cluster batch)
           (updatedRow (processed + (process_batch env.provider env.fault cluster batch).length)
              "running" none row)
           hlook
      refine ⟨row', hrow', ?_, ?_, ?_⟩
      · rw [htot, updatedRow_total]
      · intro _
        apply herr
        unfold updatedRow
        simp
      · intro _
        have hb : (process_batch env.provider env.fault cluster batch).length ≤ batch.length :=
          process_batch_length_le env.provider env.fault cluster batch
        have hstart : (updatedRow
            (processed + (process_batch env.provider env.fault cluster batch).length)
            "running" none row).processed_vms
            ≤ processed + (process_batch env.provider env.fault cluster batch).length := by
          rw [updatedRow_processed]
        have hend := hproc hstart
        simp only [List.map_cons, List.sum_cons]
        omega

theorem save_report_jobs (db : DB) (j : Nat) (t c : String) :
    (save_infrastructure_report db j t c).jobs = db.jobs := rfl

/-- When the failed-status write does not raise, the `except` clause marks
the job failed and re-raises the original exception. -/
theorem failRun_ok (env : Env) (j p : Nat) (e : String) (db : DB) (fs : FS)
    (evs : List Event) (huf : env.failUpdateFail = none) :
    failRun env j p e db fs evs
      = (.raised j e, update_batch_job db j p "failed" (some e), fs,
         evs ++ [Event.updateJob j p "failed"]) := by
  simp [failRun, huf]

/-- When the failed-status write itself raises, the new exception propagates
and the database is left untouched: no failure is recorded. -/
theorem failRun_raises (env : Env) (j p : Nat) (e : String) (db : DB) (fs : FS)
    (evs : List Event) (e2 : String) (huf : env.failUpdateFail = some e2) :
    failRun env j p e db fs evs = (.raised j e2, db, fs, evs) := by
  simp [failRun, huf]

theorem run_full_analysis_nonempty (env : Env) (db : DB) (fs : FS)
    (hne : (get_all_resources env.api).isEmpty = false)
    (hmf : env.mkdirFail = none) :
    run_full_analysis env db fs
      = runTail env db.nextId (get_cluster_info env.api)
          (jobOutputDir env.settings db.nextId)
          (applyOp fs (.mkdir (jobOutputDir env.settings db.nextId)))
          (groupLoop env db.nextId (get_cluster_info env.api)
            (chunks env.settings.batch_size (get_all_resources env.api))
            (create_batch_job db (get_all_resources env.api).length).2 0 []) := by
  simp only [run_full_analysis, hne, Bool.false_eq_true, if_false, hmf]
  rfl

/-- When creating the job output directory raises (after job creation,
outside the `try`), the exception propagates at once: the freshly created
job record is left untouched — still "running" — the filesystem is
unchanged and no event is emitted. -/
theorem run_full_analysis_mkdir (env : Env) (db : DB) (fs : FS)
    (hne : (get_all_resources env.api).isEmpty = false)
    (e : String) (hmf : env.mkdirFail = some e) :
    run_full_analysis env db fs
      = (.raised db.nextId e,
         (create_batch_job db (get_all_resources env.api).length).2, fs, []) := by
  simp only [run_full_analysis, hne, Bool.false_eq_true, if_false, hmf]
  rfl

/-- When the `except` clause's failed-status write does not itself raise,
`runTail` ends the job in a terminal state: either some step raised and the
job row is marked failed with that message, or every step succeeded and the
job row is marked completed; the row id stays present. -/
theorem runTail_out (env : Env) (j : Nat) (cluster : Option ClusterData) (outDir : FsPath)
    (fs1 : FS) (db2 : DB) (processed : Nat) (all_results : List AnalysisResult)
    (evs : List Event) (err : Option String) (row : BatchJobRow)
    (hrow : List.lookup j db2.jobs = some row)
    (huf : env.failUpdateFail = none) :
    (∃ e, (runTail env j cluster outDir fs1 (db2, processed, all_results, evs, err)).1
            = .raised j e
       ∧ List.lookup j
           (runTail env j cluster outDir fs1 (db2, processed, all_results, evs, err)).2.1.jobs
           = some (updatedRow processed "failed" (some e) row))
    ∨ (err = none
       ∧ (runTail env j cluster outDir fs1 (db2, processed, all_results, evs, err)).1
          = .completed j
       ∧ List.lookup j
           (runTail env j cluster outDir fs1 (db2, processed, all_results, evs, err)).2.1.jobs
           = some (updatedRow processed "completed" none row)) := by
  cases err with
  | some e =>
    refine Or.inl ⟨e, ?_, ?_⟩
    · show (failRun env j processed e db2 fs1 evs).1 = RunOutcome.raised j e
      rw [failRun_ok env j processed e db2 fs1 evs huf]
    · show List.lookup j (failRun env j processed e db2 fs1 evs).2.1.jobs
        = some (updatedRow processed "failed" (some e) row)
      rw [failRun_ok env j processed e db2 fs1 evs huf]
      dsimp only
      rw [lookup_update_batch_job, hrow]
      rfl
  | none =>
    cases hif : env.indivFail with
    | some e =>
      refine Or.inl ⟨e, ?_, ?_⟩
      · simp [runTail, hif, failRun, huf]
      · have : (runTail env j cluster outDir fs1 (db2, processed, all_results, evs, none)).2.1
            = update_batch_job db2 j processed "failed" (some e) := by
          simp [runTail, hif, failRun, huf]
        rw [this, lookup_update_batch_job, hrow]
        rfl
    | none =>
      cases hsum : env.summarize all_results cluster with
      | error e =>
        refine Or.inl ⟨e, ?_, ?_⟩
        · simp [runTail, hif, hsum, failRun, huf]
        · have : (runTail env j cluster outDir fs1 (db2, processed, all_results, evs, none)).2.1
              = update_batch_job db2 j processed "failed" (some e) := by
            simp [runTail, hif, hsum, failRun, huf]
          rw [this, lookup_update_batch_job, hrow]
          rfl
      | ok summary =>
        cases hrf : env.reportFail with
        | some e =>
          refine Or.inl ⟨e, ?_, ?_⟩
          · simp [runTail, hif, hsum, hrf, failRun, huf]
          · have : (runTail env j cluster outDir fs1 (db2, processed, all_results, evs, none)).2.1
                = update_batch_job db2 j processed "failed" (some e) := by
              simp [runTail, hif, hsum, hrf, failRun, huf]
            rw [this, lookup_update_batch_job, hrow]
            rfl
        | none =>
          cases hcf : env.consolFail with
          | some e =>
            refine Or.inl ⟨e, ?_, ?_⟩
            · simp [runTail, hif, hsum, hrf, hcf, failRun, huf]
            · have : (runTail env j cluster outDir fs1 (db2, processed, all_results, evs, none)).2.1
                  = update_batch_job (save_infrastructure_report db2 j "summary" summary)
                      j processed "failed" (some e) := by
                simp [runTail, hif, hsum, hrf, hcf, failRun, huf]
              rw [this, lookup_update_batch_job, save_report_jobs, hrow]
              rfl
          | none =>
            refine Or.inr ⟨rfl, ?_, ?_⟩
            · simp [runTail, hif, hsum, hrf, hcf, failRun]
            · have : (runTail env j cluster outDir fs1 (db2, processed, all_results, evs, none)).2.1
                  = update_batch_job (save_infrastructure_report db2 j "summary" summary)
                      j processed "completed" none := by
                simp [runTail, hif, hsum, hrf, hcf]
              rw [this, lookup_update_batch_job, save_report_jobs, hrow]
              rfl

/-- The job row after `runTail`: either unchanged (the `except` clause's
failed-status write itself raised), marked failed, or marked completed. -/
theorem runTail_row (env : Env) (j : Nat) (cluster : Option ClusterData) (outDir : FsPath)
    (fs1 : FS) (db2 : DB) (processed : Nat) (all_results : List AnalysisResult)
    (evs : List Event) (err : Option String) (row : BatchJobRow)
    (hrow : List.lookup j db2.jobs = some row) :
    List.lookup j
        (runTail env j cluster outDir fs1 (db2, processed, all_results, evs, err)).2.1.jobs
      = some row
    ∨ (∃ e, List.lookup j
        (runTail env j cluster outDir fs1 (db2, processed, all_results, evs, err)).2.1.jobs
      = some (updatedRow processed "failed" (some e) row))
    ∨ List.lookup j
        (runTail env j cluster outDir fs1 (db2, processed, all_results, evs, err)).2.1.jobs
      = some (updatedRow processed "completed" none row) := by
  cases huf : env.failUpdateFail with
  | none =>
    rcases runTail_out env j cluster outDir fs1 db2 processed all_results evs err row hrow huf
      with ⟨e, _, hlook⟩ | ⟨_, _, hlook⟩
    · exact Or.inr (Or.inl ⟨e, hlook⟩)
    · exact Or.inr (Or.inr hlook)
  | some e2 =>
    cases err with
    | some e =>
      refine Or.inl ?_
      have hd : (runTail env j cluster outDir fs1
          (db2, processed, all_results, evs, some e)).2.1 = db2 := by
        simp [runTail, failRun, huf]
      rw [hd]
      exact hrow
    | none =>
      cases hif : env.indivFail with
      | some e =>
        refine Or.inl ?_
        have hd : (runTail env j cluster outDir fs1
            (db2, processed, all_results, evs, none)).2.1 = db2 := by
          simp [runTail, hif, failRun, huf]
        rw [hd]
        exact hrow
      | none =>
        cases hsum : env.summarize all_results cluster with
        | error e =>
          refine Or.inl ?_
          have hd : (runTail env j cluster outDir fs1
              (db2, processed, all_results, evs, none)).2.1 = db2 := by
            simp [runTail, hif, hsum, failRun, huf]
          rw [hd]
          exact hrow
        | ok summary =>
          cases hrf : env.reportFail with
          | some e =>
            refine Or.inl ?_
            have hd : (runTail env j cluster outDir fs1
                (db2, processed, all_results, evs, none)).2.1 = db2 := by
              simp [runTail, hif, hsum, hrf, failRun, huf]
            rw [hd]
            exact hrow
          | none =>
            cases hcf : env.consolFail with
            | some e =>
              refine Or.inl ?_
              have hd : (runTail env j cluster outDir fs1
                  (db2, processed, all_results, evs, none)).2.1
                  = save_infrastructure_report db2 j "summary" summary := by
                simp [runTail, hif, hsum, hrf, hcf, failRun, huf]
              rw [hd, save_report_jobs]
              exact hrow
            | none =>
              refine Or.inr (Or.inr ?_)
              have hd : (runTail env j cluster outDir fs1
                  (db2, processed, all_results, evs, none)).2.1
                  = update_batch_job (save_infrastructure_report db2 j "summary" summary)
                      j processed "completed" none := by
                simp [runTail, hif, hsum, hrf, hcf]
              rw [hd, lookup_update_batch_job, save_report_jobs, hrow]
              rfl

/-- The trace produced by `runTail`: the loop's events, possibly the report
event, and — when a terminal update is recorded at all — exactly one
terminal `updateJob` carrying the processed count with a non-"running"
status.  When the `except` clause's failed-status write itself raises, no
terminal update appears in the trace. -/
theorem runTail_trace (env : Env) (j : Nat) (cluster : Option ClusterData) (outDir : FsPath)
    (fs1 : FS) (db2 : DB) (processed : Nat) (all_results : List AnalysisResult)
    (evs : List Event) (err : Option String) :
    ∃ mid tail, (mid = [] ∨ mid = [Event.persistReport j "summary"])
      ∧ (tail = [] ∨ ∃ status, (status = "failed" ∨ status = "completed")
          ∧ tail = [Event.updateJob j processed status])
      ∧ (runTail env j cluster outDir fs1 (db2, processed, all_results, evs, err)).2.2.2
          = evs ++ (mid ++ tail) := by
  cases huf : env.failUpdateFail with
  | some e2 =>
    cases err with
    | some e =>
      refine ⟨[], [], Or.inl rfl, Or.inl rfl, ?_⟩
      simp [runTail, failRun, huf]
    | none =>
      cases hif : env.indivFail with
      | some e =>
        refine ⟨[], [], Or.inl rfl, Or.inl rfl, ?_⟩
        simp [runTail, hif, failRun, huf]
      | none =>
        cases hsum : env.summarize all_results cluster with
        | error e =>
          refine ⟨[], [], Or.inl rfl, Or.inl rfl, ?_⟩
          simp [runTail, hif, hsum, failRun, huf]
        | ok summary =>
          cases hrf : env.reportFail with
          | some e =>
            refine ⟨[], [], Or.inl rfl, Or.inl rfl, ?_⟩
            simp [runTail, hif, hsum, hrf, failRun, huf]
          | none =>
            cases hcf : env.consolFail with
            | some e =>
              refine ⟨[Event.persistReport j "summary"], [], Or.inr rfl, Or.inl rfl, ?_⟩
              simp [runTail, hif, hsum, hrf, hcf, failRun, huf]
            | none =>
              refine ⟨[Event.persistReport j "summary"], [Event.updateJob j processed "completed"],
                Or.inr rfl, Or.inr ⟨"completed", Or.inr rfl, rfl⟩, ?_⟩
              simp [runTail, hif, hsum, hrf, hcf]
  | none =>
    cases err with
    | some e =>
      refine ⟨[], [Event.updateJob j processed "failed"], Or.inl rfl,
        Or.inr ⟨"failed", Or.inl rfl, rfl⟩, ?_⟩
      simp [runTail, failRun, huf]
    | none =>
      cases hif : env.indivFail with
      | some e =>
        refine ⟨[], [Event.updateJob j processed "failed"], Or.inl rfl,
          Or.inr ⟨"failed", Or.inl rfl, rfl⟩, ?_⟩
        simp [runTail, hif, failRun, huf]
      | none =>
        cases hsum : env.summarize all_results cluster with
        | error e =>
          refine ⟨[], [Event.updateJob j processed "failed"], Or.inl rfl,
            Or.inr ⟨"failed", Or.inl rfl, rfl⟩, ?_⟩
          simp [runTail, hif, hsum, failRun, huf]
        | ok summary =>
          cases hrf : env.reportFail with
          | some e =>
            refine ⟨[], [Event.updateJob j processed "failed"], Or.inl rfl,
              Or.inr ⟨"failed", Or.inl rfl, rfl⟩, ?_⟩
            simp [runTail, hif, hsum, hrf, failRun, huf]
          | none =>
            cases hcf : env.consolFail with
            | some e =>
              refine ⟨[Event.persistReport j "summary"], [Event.updateJob j processed "failed"],
                Or.inr rfl, Or.inr ⟨"failed", Or.inl rfl, rfl⟩, ?_⟩
              simp [runTail, hif, hsum, hrf, hcf, failRun, huf]
            | none =>
              refine ⟨[Event.persistReport j "summary"], [Event.updateJob j processed "completed"],
                Or.inr rfl, Or.inr ⟨"completed", Or.inr rfl, rfl⟩, ?_⟩
              simp [runTail, hif, hsum, hrf, hcf]

/-- With no failing step after the loop, `runTail` completes: the trace is
the loop trace followed by the report event and the terminal completed
update, and the outcome is `completed`. -/
theorem runTail_noFail_trace (env : Env) (j : Nat) (cluster : Option ClusterData)
    (outDir : FsPath) (fs1 : FS) (db2 : DB) (processed : Nat)
    (all_results : List AnalysisResult) (evs : List Event)
    (h2 : env.indivFail = none) (h3 : env.reportFail = none) (h4 : env.consolFail = none)
    (h5 : ∀ rs c, ∃ s, env.summarize rs c = .ok s) :
    (runTail env j cluster outDir fs1 (db2, processed, all_results, evs, none)).2.2.2
      = evs ++ [Event.persistReport j "summary", Event.updateJob j processed "completed"]
    ∧ (runTail env j cluster outDir fs1 (db2, processed, all_results, evs, none)).1
      = .completed j
    ∧ List.lookup j
        (runTail env j cluster outDir fs1 (db2, processed, all_results, evs, none)).2.1.jobs
      = (List.lookup j db2.jobs).map (updatedRow processed "completed" none) := by
  obtain ⟨s, hs⟩ := h5 all_results cluster
  refine ⟨?_, ?_, ?_⟩
  · simp [runTail, h2, h3, h4, hs]
  · simp [runTail, h2, h3, h4, hs]
  · have : (runTail env j cluster outDir fs1 (db2, processed, all_results, evs, none)).2.1
        = update_batch_job (save_infrastructure_report db2 j "summary" s)
            j processed "completed" none := by
      simp [runTail, h2, h3, h4, hs]
    rw [this, lookup_update_batch_job, save_report_jobs]

theorem lookup_create_batch_job (db : DB) (n : Nat) :
    List.lookup db.nextId (create_batch_job db n).2.jobs
      = some { status := "running", total_vms := n, processed_vms := 0, error_message := none } := by
  simp [create_batch_job, List.lookup]

/-- A run over a non-empty inventory with no failing step completes: the
outcome is `completed` for the created job id, the trace is the canonical
per-group trace followed by the report and the terminal completed update
with the kept count, the job row ends completed with the full totals, and
the persisted results are exactly the kept results in order. -/
theorem run_noFail (env : Env) (db : DB) (fs : FS)
    (hne : (get_all_resources env.api).isEmpty = false)
    (hnf : env.noStepFailure) :
    runOutcome env db fs = .completed db.nextId
    ∧ runTrace env db fs
        = groupEventsFrom env db.nextId (get_cluster_info env.api)
            (chunks env.settings.batch_size (get_all_resources env.api)) 0
          ++ [Event.persistReport db.nextId "summary",
              Event.updateJob db.nextId (keptCount env) "completed"]
    ∧ List.lookup db.nextId (runDB env db fs).jobs
        = some { status := "completed", total_vms := (get_all_resources env.api).length,
                 processed_vms := keptCount env, error_message := none }
    ∧ persistVals (runTrace env db fs) = keptResults env := by
  obtain ⟨hsf, hif, hrf, hcf, hmf, _huf, hsum⟩ := hnf
  have hrun := run_full_analysis_nonempty env db fs hne hmf
  have hNF := groupLoop_noFail env db.nextId (get_cluster_info env.api) hsf
      (chunks env.settings.batch_size (get_all_resources env.api))
      (create_batch_job db (get_all_resources env.api).length).2 0 []
  have hOK := groupLoop_ok env db.nextId (get_cluster_info env.api)
      (chunks env.settings.batch_size (get_all_resources env.api))
      (create_batch_job db (get_all_resources env.api).length).2 0 [] hNF.2
  have hjl := groupLoop_jobs env db.nextId (get_cluster_info env.api)
      (chunks env.settings.batch_size (get_all_resources env.api))
      (create_batch_job db (get_all_resources env.api).length).2 0 []
      { status := "running", total_vms := (get_all_resources env.api).length,
        processed_vms := 0, error_message := none }
      (lookup_create_batch_job db (get_all_resources env.api).length)
  unfold runOutcome runTrace runDB
  rw [hrun]
  rcases hGL : groupLoop env db.nextId (get_cluster_info env.api)
      (chunks env.settings.batch_size (get_all_resources env.api))
      (create_batch_job db (get_all_resources env.api).length).2 0 []
    with ⟨db2, p2, ar2, evs2, err2⟩
  rw [hGL] at hNF hOK hjl
  dsimp only at hNF hOK hjl
  obtain ⟨hevs, herr⟩ := hNF
  obtain ⟨hp, har, hpv⟩ := hOK
  obtain ⟨row', hrow', htot, herrm, _hprocb⟩ := hjl
  subst herr
  obtain ⟨htr, hout, hjobs⟩ := runTail_noFail_trace env db.nextId (get_cluster_info env.api)
      (jobOutputDir env.settings db.nextId)
      (applyOp fs (.mkdir (jobOutputDir env.settings db.nextId)))
      db2 p2 ar2 evs2 hif hrf hcf hsum
  have hp' : p2 = keptCount env := by
    rw [hp, Nat.zero_add]
    rfl
  refine ⟨hout, ?_, ?_, ?_⟩
  · rw [htr, hevs, hp']
  · rw [hjobs, hrow']
    have hem : row'.error_message = none := herrm rfl
    have hrw : updatedRow p2 "completed" none row'
        = { status := "completed", total_vms := (get_all_resources env.api).length,
            processed_vms := keptCount env, error_message := none } := by
      cases row' with
      | mk st tv pv em =>
        unfold updatedRow
        rw [if_pos rfl]
        simp only at htot hem
        rw [htot, hem, hp']
    simp [hrw]
  · rw [htr, persistVals_append, hpv]
    simp [persistVals, keptResults]

theorem leadsWith_exists (s : List Char) :
    ∀ (y : List Char), leadsWith s y = true → ∃ r, y = s ++ r := by
  induction s with
  | nil => intro y _; exact ⟨y, rfl⟩
  | cons a s ih =>
    intro y h
    cases y with
    | nil => simp [leadsWith] at h
    | cons b t =>
      simp only [leadsWith, Bool.and_eq_true, decide_eq_true_eq] at h
      obtain ⟨r, hr⟩ := ih t h.2
      exact ⟨r, by rw [h.1, hr]; rfl⟩

theorem hasSegment_iff (small : List Char) :
    ∀ (big : List Char), hasSegment big small = true ↔ ∃ x y, big = x ++ small ++ y := by
  intro big
  induction big with
  | nil =>
    simp only [hasSegment, List.isEmpty_iff]
    constructor
    · intro h; exact ⟨[], [], by rw [h]; rfl⟩
    · rintro ⟨x, y, hxy⟩
      cases small with
      | nil => rfl
      | cons c cs =>
        exfalso
        cases x <;> simp at hxy
  | cons b t ih =>
    simp only [hasSegment, Bool.or_eq_true]
    constructor
    · rintro (h | h)
      · obtain ⟨r, hr⟩ := leadsWith_exists small (b :: t) h
        exact ⟨[], r, by rw [hr]; rfl⟩
      · obtain ⟨x, y, hxy⟩ := ih.mp h
        exact ⟨b :: x, y, by rw [hxy]; rfl⟩
    · rintro ⟨x, y, hxy⟩
      cases x with
      | nil =>
        left
        simp only [List.nil_append] at hxy
        rw [hxy]
        exact leadsWith_self_append small y
      | cons c x =>
        right
        apply ih.mpr
        simp only [List.cons_append] at hxy
        injection hxy with h1 h2
        exact ⟨x, y, h2⟩

theorem strIn_trans (a b c : String) (hab : strIn a b) (hbc : strIn b c) : strIn a c := by
  unfold strIn at hab hbc ⊢
  obtain ⟨x, y, hxy⟩ := (hasSegment_iff a.data b.data).mp hab
  obtain ⟨u, v, huv⟩ := (hasSegment_iff b.data c.data).mp hbc
  apply (hasSegment_iff a.data c.data).mpr
  refine ⟨u ++ x, y ++ v, ?_⟩
  rw [huv, hxy]
  simp [List.append_assoc]

/-- `small` is a substring of `x ++ small`. -/
theorem strIn_append_self_right (small x : String) : strIn small (x ++ small) := by
  unfold strIn
  apply (hasSegment_iff small.data (x ++ small).data).mpr
  exact ⟨x.data, [], by simp [String.data_append]⟩

theorem siteYmlSection_eq (r : AnalysisResult) :
    siteYmlSection r
      = siteYmlHeader r ++ "    # See individual playbooks for details\n\n" := by
  simp [siteYmlSection, siteYmlHeader, String.append_assoc]

theorem isEmpty_false_of_ne_nil {l : List VMData} (h : l ≠ []) : l.isEmpty = false := by
  cases l with
  | nil => exact absurd rfl h
  | cons a t => rfl

theorem chunks_pair (b : Nat) (hb : 2 ≤ b) (x y : VMData) : chunks b [x, y] = [[x, y]] := by
  show chunksAux 2 b [x, y] = [[x, y]]
  have h1 : List.take b [x, y] = [x, y] := List.take_of_length_le (by simp; omega)
  have h2 : List.drop b [x, y] = [] := List.drop_eq_nil_of_le (by simp; omega)
  simp [chunksAux, h1, h2]

theorem length_runningUpdateVals_groupEventsFrom (env : Env) (j : Nat)
    (cluster : Option ClusterData) :
    ∀ (groups : List (List VMData)) (p : Nat),
      (runningUpdateVals (groupEventsFrom env j cluster groups p)).length = groups.length := by
  intro groups
  induction groups with
  | nil => intro p; rfl
  | cons batch rest ih =>
    intro p
    have hunf : groupEventsFrom env j cluster (batch :: rest) p
        = batch.map Event.analyzeReq
          ++ ((process_batch env.provider env.fault cluster batch).map (Event.persistResult j)
          ++ ([Event.updateJob j (p + (process_batch env.provider env.fault cluster batch).length)
                "running"]
          ++ groupEventsFrom env j cluster rest
              (p + (process_batch env.provider env.fault cluster batch).length))) := by
      simp [groupEventsFrom]
    have hupd : runningUpdateVals [Event.updateJob j
        (p + (process_batch env.provider env.fault cluster batch).length) "running"]
        = [p + (process_batch env.provider env.fault cluster batch).length] := by
      simp [runningUpdateVals]
    rw [hunf, runningUpdateVals_append, runningUpdateVals_append, runningUpdateVals_append,
      runningUpdateVals_analyze, runningUpdateVals_persist, hupd]
    simp only [List.nil_append, List.length_append, List.length_cons, List.length_nil]
    rw [ih (p + (process_batch env.provider env.fault cluster batch).length)]
    omega

theorem flatten_map_filter_map (p : VMData → Bool) (f : VMData → AnalysisResult) :
    ∀ (L : List (List VMData)),
      (L.map (fun g => (g.filter p).map f)).flatten = (L.flatten.filter p).map f := by
  intro L
  induction L with
  | nil => rfl
  | cons g L ih =>
    simp only [List.map_cons, List.flatten_cons, List.filter_append, List.map_append, ih]

/-- `process_batch` in closed form: the results of the non-faulting
resources, in input order. -/
theorem process_batch_eq (provider : VMData → Option ClusterData → Except String Artifacts)
    (fault : VMData → Option String) (cluster : Option ClusterData) :
    ∀ (vms : List VMData),
      process_batch provider fault cluster vms
        = (vms.filter (fun v => (fault v).isNone)).map (process_single_vm provider cluster) := by
  intro vms
  induction vms with
  | nil => rfl
  | cons v vs ih =>
    show ((gatherBatch provider fault cluster (v :: vs)).filterMap Except.toOption) = _
    cases hf : fault v with
    | some e =>
      simp only [gatherBatch, List.map_cons, hf, List.filterMap_cons]
      have : (Except.error e : Except String AnalysisResult).toOption = none := rfl
      rw [this]
      simp only [List.filter_cons, hf, Option.isNone_some, Bool.false_eq_true, if_false]
      exact ih
    | none =>
      simp only [gatherBatch, List.map_cons, hf, List.filterMap_cons]
      have : (Except.ok (process_single_vm provider cluster v) : Except String AnalysisResult).toOption
          = some (process_single_vm provider cluster v) := rfl
      rw [this]
      simp only [List.filter_cons, hf, Option.isNone_none, if_true]
      rw [List.map_cons]
      exact congrArg (process_single_vm provider cluster v :: ·) ih

/-- C8: for every run in which the ResourceProvider returns an empty
inventory, `run_full_analysis` returns the no-work sentinel (Python `None`,
modelled `noWork`): no BatchJob record is created, nothing is persisted, no
file is written and no event is emitted — a documented no-work outcome, not
an error. -/
theorem c8_empty_inventory_noop (env : Env) (db : DB) (fs : FS)
    (h : get_all_resources env.api = []) :
    run_full_analysis env db fs = (.noWork, db, fs, []) := by
  simp [run_full_analysis, h]

/-- C8 witness: the empty-cluster environment hits the sentinel branch. -/
theorem c8_witness :
    run_full_analysis envEmpty {} fs0 = (.noWork, {}, fs0, []) :=
  c8_empty_inventory_noop envEmpty {} fs0 rfl

/-- C4 counterexample: with the provider unreachable the cluster fetch FAILS
(`cluster.status.get()` raises), yet `run_full_analysis` does NOT raise any
error: `get_cluster_info` swallows the exception and returns the empty dict,
the inventory comes back empty, and the run returns the no-work sentinel.
No `ProviderError` propagates to the caller, refuting the claimed raise
(the no-partial-job half of the claim does hold: the database is untouched). -/
theorem c4_counterexample :
    apiUnreachable.cluster_status_get = Except.error "unreachable"
    ∧ get_cluster_info apiUnreachable = none
    ∧ run_full_analysis envUnreachable {} fs0 = (.noWork, {}, fs0, [])
    ∧ (runDB envUnreachable {} fs0).jobs = [] :=
  ⟨rfl, rfl, rfl, rfl⟩

/-- C4 amended: when the cluster-context fetch raises, `get_cluster_info`
catches the exception and returns the empty dict instead of raising; with
the node listing also failing (unreachable provider) the inventory is empty,
so `run_full_analysis` returns the no-work sentinel without raising and
without creating any job record — no partial BatchJob exists for the run. -/
theorem c4_amended_no_raise (env : Env) (db : DB) (fs : FS) (e e' : String)
    (h1 : env.api.cluster_status_get = .error e)
    (h2 : env.api.nodes_get = .error e') :
    get_cluster_info env.api = none
    ∧ get_all_resources env.api = []
    ∧ run_full_analysis env db fs = (.noWork, db, fs, []) := by
  have hres : get_all_resources env.api = [] := by
    simp [get_all_resources, get_all_vms, get_all_lxcs, get_all_nodes, h2]
  refine ⟨?_, hres, ?_⟩
  · simp [get_cluster_info, h1]
  · simp [run_full_analysis, hres]

/-- C4 witness: the amended statement at the unreachable environment. -/
theorem c4_witness :
    get_cluster_info envUnreachable.api = none
    ∧ get_all_resources envUnreachable.api = []
    ∧ run_full_analysis envUnreachable {} fs0 = (.noWork, {}, fs0, []) :=
  c4_amended_no_raise envUnreachable {} fs0 "unreachable" "unreachable" rfl rfl

/-- C2: `process_single_vm` never propagates a provider exception: it is a
total function, and when the provider raises with message `e` for a
resource it returns that resource's dict with `error = true` and the
message embedded in `analysis` ("Error: " ++ e); a succeeding resource in
the same group gets a normal (error-free) merged result.  In a run whose
inventory is exactly the failing resource X and the succeeding resource Y
in one group, the persisted result set contains the error-flagged result
for X and the normal result for Y, in order, and the run still reaches
COMPLETED. -/
theorem c2_per_resource_containment
    (provider : VMData → Option ClusterData → Except String Artifacts)
    (env : Env) (db : DB) (fs : FS) (X Y : VMData) (e : String) (aY : Artifacts)
    (henv : env.provider = provider)
    (hres : get_all_resources env.api = [X, Y])
    (hb2 : 2 ≤ env.settings.batch_size)
    (hfault : ∀ v, env.fault v = none)
    (hnf : env.noStepFailure)
    (hX : provider X (get_cluster_info env.api) = .error e)
    (hY : provider Y (get_cluster_info env.api) = .ok aY) :
    process_single_vm provider (get_cluster_info env.api) X
      = { vm := X, analysis := some ("Error: " ++ e), error := true }
    ∧ process_single_vm provider (get_cluster_info env.api) Y
      = { vm := Y, analysis := some aY.analysis,
          security_review := aY.security_review,
          optimization_recommendations := aY.optimization_recommendations,
          terraform_template := aY.terraform_template,
          ansible_playbook := aY.ansible_playbook, error := false }
    ∧ persistVals (runTrace env db fs)
      = [process_single_vm provider (get_cluster_info env.api) X,
         process_single_vm provider (get_cluster_info env.api) Y]
    ∧ runOutcome env db fs = .completed db.nextId
    ∧ (∃ row, List.lookup db.nextId (runDB env db fs).jobs = some row
        ∧ row.status = "completed") := by
  have hne : (get_all_resources env.api).isEmpty = false := by rw [hres]; rfl
  obtain ⟨hout, htr, hrow, hpv⟩ := run_noFail env db fs hne hnf
  have hchunks : chunks env.settings.batch_size (get_all_resources env.api) = [[X, Y]] := by
    rw [hres]
    exact chunks_pair _ hb2 X Y
  have hkept : keptResults env
      = [process_single_vm provider (get_cluster_info env.api) X,
         process_single_vm provider (get_cluster_info env.api) Y] := by
    unfold keptResults
    rw [hchunks]
    simp [process_batch_eq, hfault, henv]
  refine ⟨?_, ?_, ?_, hout, ⟨_, hrow, rfl⟩⟩
  · simp [process_single_vm, hX]
  · simp [process_single_vm, hY]
  · rw [hpv, hkept]

/-- C2 witness: in `envXY`, X (id 100) fails with "boom" and the result is
contained as an error-flagged record. -/
theorem c2_witness :
    process_single_vm providerXY (get_cluster_info envXY.api) vmDemoX
      = { vm := vmDemoX, analysis := some ("Error: " ++ "boom"), error := true } :=
  (c2_per_resource_containment providerXY envXY {} fs0 vmDemoX vmDemoY "boom" artsDemo
    rfl (by decide) (by decide) (fun _ => rfl)
    ⟨fun _ => rfl, rfl, rfl, rfl, rfl, rfl, fun _ _ => ⟨"SUMMARY", rfl⟩⟩
    rfl rfl).1

/-- C7: the ArtifactWriter (individual outputs followed by consolidated
outputs) is idempotent for a fixed `(job_id, results)` pair: a second
invocation overwrites every file in place with the same bytes, so the
resulting filesystem is identical to the one after the first invocation.
Directories are created if absent and never cleared, and no existing file
is ever deleted (it survives or is overwritten, but stays present). -/
theorem c7_artifact_writer_idempotent (s : Settings) (job_id : Nat)
    (results : List AnalysisResult) (fs : FS) :
    artifactWriter s job_id results (artifactWriter s job_id results fs)
      = artifactWriter s job_id results fs
    ∧ (∀ p v, fs.files p = some v →
        ∃ w, (artifactWriter s job_id results fs).files p = some w)
    ∧ (∀ p, fs.dirs p = true → (artifactWriter s job_id results fs).dirs p = true) := by
  refine ⟨?_, ?_, ?_⟩
  · rw [artifactWriter_eq, artifactWriter_eq]
    exact applyOps_idem (writerOps s job_id results) fs
  · intro p v h
    rw [artifactWriter_eq]
    exact applyOps_files_mono _ fs p v h
  · intro p h
    rw [artifactWriter_eq]
    exact applyOps_dirs_mono _ fs p h

/-- C7 witness: replaying the writer on a concrete filesystem is a no-op and
preserves the pre-existing file and directory. -/
theorem c7_witness :
    artifactWriter {} 1 [resDemo] (artifactWriter {} 1 [resDemo] fsPre)
      = artifactWriter {} 1 [resDemo] fsPre
    ∧ (∃ w, (artifactWriter {} 1 [resDemo] fsPre).files ["old.txt"] = some w)
    ∧ (artifactWriter {} 1 [resDemo] fsPre).dirs ["olddir"] = true :=
  ⟨(c7_artifact_writer_idempotent {} 1 [resDemo] fsPre).1,
   (c7_artifact_writer_idempotent {} 1 [resDemo] fsPre).2.1 ["old.txt"] "old" (by simp [fsPre]),
   (c7_artifact_writer_idempotent {} 1 [resDemo] fsPre).2.2 ["olddir"] (by simp [fsPre])⟩

/-- C9: the consolidated Terraform main file is exactly the static preamble
followed by one labeled section per resource whose result has a truthy
(non-empty) `terraform_template`, joined in result-list order (the filter is
an order-preserving sublist of the full result list, which the orchestrator
aggregates in inventory order); each such section — and hence the file —
contains the resource-identifying header line and the resource's template
text, and the file is written as `terraform/main.tf` by the consolidated
writer when Terraform output is enabled. -/
theorem c9_consolidated_tf_completeness (results : List AnalysisResult)
    (s : Settings) (outDir : FsPath) (ht : s.enable_terraform = true) :
    mainTfContent results
      = tfPreamble ++ String.join ((results.filter hasTf).map tfSection)
    ∧ (results.filter hasTf).Sublist results
    ∧ (∀ r ∈ results, hasTf r = true →
        strIn (tfSection r) (mainTfContent results)
        ∧ strIn (tfLabel r) (mainTfContent results)
        ∧ strIn (r.terraform_template.getD "") (mainTfContent results))
    ∧ FsOp.write (outDir ++ ["terraform", "main.tf"]) (mainTfContent results)
        ∈ consolidatedOps s outDir results := by
  refine ⟨mainTfContent_eq results, List.filter_sublist results, ?_, ?_⟩
  · intro r hr htf
    have hmem : tfSection r ∈ (results.filter hasTf).map tfSection :=
      List.mem_map_of_mem tfSection (List.mem_filter.mpr ⟨hr, htf⟩)
    have hsec : strIn (tfSection r) (mainTfContent results) := by
      rw [mainTfContent_eq results]
      exact strIn_of_append_left _ _ _ (strIn_join_of_mem _ _ hmem)
    refine ⟨hsec, ?_, ?_⟩
    · refine strIn_trans _ (tfSection r) _ ?_ hsec
      unfold tfSection
      exact strIn_of_append_right _ _ _ (strIn_append_self _ _)
    · refine strIn_trans _ (tfSection r) _ ?_ hsec
      unfold tfSection
      exact strIn_of_append_right _ _ _ (strIn_append_self_right _ _)
  · simp [consolidatedOps, ht]

/-- C9 witness: the demo result's template and header land in the
consolidated main file. -/
theorem c9_witness :
    strIn (tfLabel resDemo) (mainTfContent [resDemo])
    ∧ strIn "T" (mainTfContent [resDemo]) :=
  ⟨((c9_consolidated_tf_completeness [resDemo] {} ["out"] rfl).2.2.1 resDemo
      (by simp) (by decide)).2.1,
   ((c9_consolidated_tf_completeness [resDemo] {} ["out"] rfl).2.2.1 resDemo
      (by simp) (by decide)).2.2⟩

/-- C1 counterexample: two runs over the non-empty demo inventory in which
the job record is created and `run_full_analysis` raises, yet the job row
still has status "running" afterwards — refuting "no job remains with
status RUNNING after runFullAnalysis returns or raises".  First
(`envMkdirFail`): `job_output_dir.mkdir`, performed after job creation but
outside the `try`, raises; the exception propagates immediately and the
freshly created row stays "running" with no FAILED record.  Second
(`envFailWrite`): the summary call raises inside the `try` and the `except`
clause's own `update_batch_job(status="failed")` write raises too; the new
exception propagates and the row keeps its last written "running" state. -/
theorem c1_counterexample :
    get_all_resources envMkdirFail.api ≠ []
    ∧ runOutcome envMkdirFail {} fs0 = .raised 1 "mkdir: permission denied"
    ∧ List.lookup 1 (runDB envMkdirFail {} fs0).jobs
        = some { status := "running", total_vms := 2, processed_vms := 0,
                 error_message := none }
    ∧ get_all_resources envFailWrite.api ≠ []
    ∧ runOutcome envFailWrite {} fs0 = .raised 1 "database is locked"
    ∧ List.lookup 1 (runDB envFailWrite {} fs0).jobs
        = some { status := "running", total_vms := 2, processed_vms := 2,
                 error_message := none } := by
  refine ⟨by decide, rfl, rfl, by decide, rfl, rfl⟩

/-- C1 (amended): for every run with a non-empty inventory in which the job
record has been created, provided the job-output-directory creation
(performed after job creation, outside the `try`) and the `except` clause's
own failed-status write do not themselves raise, the job record ends in a
terminal status when `run_full_analysis` finishes: on success the outcome
is `completed job_id` and the row is "completed" with `processed_vms` equal
to the number of persisted results; if any step inside the `try` raises,
the outcome is `raised job_id e` (the exception re-raised to the caller)
and the row is "failed" with the error message recorded before the raise.
In both cases the row's status is not "running", and its total is the
inventory size fixed at creation.  (Without the two provisos the claim is
refuted by `c1_counterexample`: either raise leaves the job "running".) -/
theorem c1_terminal_job_status (env : Env) (db : DB) (fs : FS)
    (hne : get_all_resources env.api ≠ [])
    (hmf : env.mkdirFail = none) (huf : env.failUpdateFail = none) :
    ∃ job_id row,
      List.lookup job_id (runDB env db fs).jobs = some row
      ∧ row.total_vms = (get_all_resources env.api).length
      ∧ row.status ≠ "running"
      ∧ ((∃ e, runOutcome env db fs = .raised job_id e
            ∧ row.status = "failed" ∧ row.error_message = some e)
         ∨ (runOutcome env db fs = .completed job_id
            ∧ row.status = "completed"
            ∧ row.processed_vms = (persistVals (runTrace env db fs)).length)) := by
  have hne' := isEmpty_false_of_ne_nil hne
  have hrun := run_full_analysis_nonempty env db fs hne' hmf
  have hjl := groupLoop_jobs env db.nextId (get_cluster_info env.api)
      (chunks env.settings.batch_size (get_all_resources env.api))
      (create_batch_job db (get_all_resources env.api).length).2 0 []
      { status := "running", total_vms := (get_all_resources env.api).length,
        processed_vms := 0, error_message := none }
      (lookup_create_batch_job db (get_all_resources env.api).length)
  rcases hGL : groupLoop env db.nextId (get_cluster_info env.api)
      (chunks env.settings.batch_size (get_all_resources env.api))
      (create_batch_job db (get_all_resources env.api).length).2 0 []
    with ⟨db2, p2, ar2, evs2, err2⟩
  rw [hGL] at hjl
  dsimp only at hjl
  obtain ⟨row', hrow', htot, _herrm, _hprocb⟩ := hjl
  have hO : runOutcome env db fs
      = (runTail env db.nextId (get_cluster_info env.api)
          (jobOutputDir env.settings db.nextId)
          (applyOp fs (.mkdir (jobOutputDir env.settings db.nextId)))
          (db2, p2, ar2, evs2, err2)).1 := by
    unfold runOutcome
    rw [hrun, hGL]
  have hD : runDB env db fs
      = (runTail env db.nextId (get_cluster_info env.api)
          (jobOutputDir env.settings db.nextId)
          (applyOp fs (.mkdir (jobOutputDir env.settings db.nextId)))
          (db2, p2, ar2, evs2, err2)).2.1 := by
    unfold runDB
    rw [hrun, hGL]
  have hT : runTrace env db fs
      = (runTail env db.nextId (get_cluster_info env.api)
          (jobOutputDir env.settings db.nextId)
          (applyOp fs (.mkdir (jobOutputDir env.settings db.nextId)))
          (db2, p2, ar2, evs2, err2)).2.2.2 := by
    unfold runTrace
    rw [hrun, hGL]
  rcases runTail_out env db.nextId (get_cluster_info env.api)
      (jobOutputDir env.settings db.nextId)
      (applyOp fs (.mkdir (jobOutputDir env.settings db.nextId)))
      db2 p2 ar2 evs2 err2 row' hrow' huf with ⟨e, hout, hlook⟩ | ⟨herr2, hout, hlook⟩
  · refine ⟨db.nextId, updatedRow p2 "failed" (some e) row', ?_, ?_, ?_, Or.inl ⟨e, ?_, ?_, ?_⟩⟩
    · rw [hD]
      exact hlook
    · rw [updatedRow_total]
      exact htot
    · rw [updatedRow_status]
      decide
    · rw [hO]
      exact hout
    · exact updatedRow_status p2 "failed" (some e) row'
    · exact updatedRow_error_of_ne p2 "failed" (some e) row' (by decide)
  · subst herr2
    have hOK := groupLoop_ok env db.nextId (get_cluster_info env.api)
        (chunks env.settings.batch_size (get_all_resources env.api))
        (create_batch_job db (get_all_resources env.api).length).2 0 []
        (by rw [hGL])
    rw [hGL] at hOK
    dsimp only at hOK
    obtain ⟨hp, _har, hpv⟩ := hOK
    obtain ⟨mid, tail, hmid, htail, htr⟩ := runTail_trace env db.nextId (get_cluster_info env.api)
        (jobOutputDir env.settings db.nextId)
        (applyOp fs (.mkdir (jobOutputDir env.settings db.nextId)))
        db2 p2 ar2 evs2 none
    have hpvtrace : persistVals (runTrace env db fs) = persistVals evs2 := by
      rw [hT, htr, persistVals_append, persistVals_append]
      rcases hmid with h | h <;> rcases htail with h2 | ⟨st, _hst, h2⟩ <;>
        subst h <;> subst h2 <;> simp [persistVals]
    have hlenpv : (persistVals evs2).length = p2 := by
      rw [hpv, hp, List.length_flatten, List.map_map, Nat.zero_add]
      rfl
    refine ⟨db.nextId, updatedRow p2 "completed" none row', ?_, ?_, ?_, Or.inr ⟨?_, ?_, ?_⟩⟩
    · rw [hD]
      exact hlook
    · rw [updatedRow_total]
      exact htot
    · rw [updatedRow_status]
      decide
    · rw [hO]
      exact hout
    · exact updatedRow_status p2 "completed" none row'
    · rw [updatedRow_processed, hpvtrace, hlenpv]

/-- C1 witness: in the healthy demo environment neither collapsed write
raises, and the run ends with the job in a terminal status. -/
theorem c1_witness :
    envDemo.mkdirFail = none
    ∧ envDemo.failUpdateFail = none
    ∧ ∃ job_id row,
      List.lookup job_id (runDB envDemo {} fs0).jobs = some row
      ∧ row.total_vms = (get_all_resources envDemo.api).length
      ∧ row.status ≠ "running"
      ∧ ((∃ e, runOutcome envDemo {} fs0 = .raised job_id e
            ∧ row.status = "failed" ∧ row.error_message = some e)
         ∨ (runOutcome envDemo {} fs0 = .completed job_id
            ∧ row.status = "completed"
            ∧ row.processed_vms = (persistVals (runTrace envDemo {} fs0)).length)) :=
  ⟨rfl, rfl, c1_terminal_job_status envDemo {} fs0 (by decide) rfl rfl⟩

/-- C3: across one run, the processed counts written by `update_batch_job`
form a non-decreasing sequence (each progress update adds the group's kept
count; the terminal update repeats the final count), every written count is
bounded by `total_vms` = inventory size, which is fixed at job creation and
never changed afterwards (the final row still carries it, and its
`processed_vms` never exceeds it); and when no step fails, the trace shows
exactly one "running" progress update per group, emitted after the group's
persistence calls (which follow the group's full fan-out/join), never
mid-group. -/
theorem c3_progress_monotone_bounded (env : Env) (db : DB) (fs : FS)
    (hb : 0 < env.settings.batch_size) (hne : get_all_resources env.api ≠ []) :
    List.Chain' (· ≤ ·) (updateVals (runTrace env db fs))
    ∧ (∀ v ∈ updateVals (runTrace env db fs), v ≤ (get_all_resources env.api).length)
    ∧ (∃ row, List.lookup db.nextId (runDB env db fs).jobs = some row
        ∧ row.total_vms = (get_all_resources env.api).length
        ∧ row.processed_vms ≤ row.total_vms)
    ∧ (env.noStepFailure →
        runTrace env db fs
          = groupEventsFrom env db.nextId (get_cluster_info env.api)
              (chunks env.settings.batch_size (get_all_resources env.api)) 0
            ++ [Event.persistReport db.nextId "summary",
                Event.updateJob db.nextId (keptCount env) "completed"]
        ∧ (runningUpdateVals (runTrace env db fs)).length
            = (chunks env.settings.batch_size (get_all_resources env.api)).length) := by
  have hne' := isEmpty_false_of_ne_nil hne
  have hconj4 : env.noStepFailure →
      runTrace env db fs
        = groupEventsFrom env db.nextId (get_cluster_info env.api)
            (chunks env.settings.batch_size (get_all_resources env.api)) 0
          ++ [Event.persistReport db.nextId "summary",
              Event.updateJob db.nextId (keptCount env) "completed"]
      ∧ (runningUpdateVals (runTrace env db fs)).length
          = (chunks env.settings.batch_size (get_all_resources env.api)).length := by
    intro hnf
    obtain ⟨_, htrNF, _, _⟩ := run_noFail env db fs hne' hnf
    refine ⟨htrNF, ?_⟩
    have htail : runningUpdateVals [Event.persistReport db.nextId "summary",
        Event.updateJob db.nextId (keptCount env) "completed"] = [] := by
      simp [runningUpdateVals]
    rw [htrNF, runningUpdateVals_append, List.length_append, htail,
      length_runningUpdateVals_groupEventsFrom env db.nextId (get_cluster_info env.api)]
    rfl
  have hSumLen : ((chunks env.settings.batch_size (get_all_resources env.api)).map List.length).sum
      = (get_all_resources env.api).length :=
    chunks_sum_length env.settings.batch_size hb (get_all_resources env.api)
  cases hmf : env.mkdirFail with
  | some e =>
    have hrunM := run_full_analysis_mkdir env db fs hne' e hmf
    have hT : runTrace env db fs = [] := by
      unfold runTrace
      rw [hrunM]
    have hD : runDB env db fs
        = (create_batch_job db (get_all_resources env.api).length).2 := by
      unfold runDB
      rw [hrunM]
    refine ⟨?_, ?_, ?_, hconj4⟩
    · rw [hT]
      exact List.chain'_nil
    · intro v hv
      rw [hT] at hv
      simp [updateVals] at hv
    · refine ⟨{ status := "running", total_vms := (get_all_resources env.api).length,
                processed_vms := 0, error_message := none }, ?_, rfl, Nat.zero_le _⟩
      rw [hD]
      exact lookup_create_batch_job db (get_all_resources env.api).length
  | none =>
    have hrun := run_full_analysis_nonempty env db fs hne' hmf
    have hjl := groupLoop_jobs env db.nextId (get_cluster_info env.api)
        (chunks env.settings.batch_size (get_all_resources env.api))
        (create_batch_job db (get_all_resources env.api).length).2 0 []
        { status := "running", total_vms := (get_all_resources env.api).length,
          processed_vms := 0, error_message := none }
        (lookup_create_batch_job db (get_all_resources env.api).length)
    have hprog := groupLoop_progress env db.nextId (get_cluster_info env.api)
        (chunks env.settings.batch_size (get_all_resources env.api))
        (create_batch_job db (get_all_resources env.api).length).2 0 []
    rcases hGL : groupLoop env db.nextId (get_cluster_info env.api)
        (chunks env.settings.batch_size (get_all_resources env.api))
        (create_batch_job db (get_all_resources env.api).length).2 0 []
      with ⟨db2, p2, ar2, evs2, err2⟩
    rw [hGL] at hjl hprog
    dsimp only at hjl hprog
    obtain ⟨row', hrow', htot, _herrm, hprocb⟩ := hjl
    obtain ⟨_hp0, hp2, hch, hbd, hlast⟩ := hprog
    have hT : runTrace env db fs
        = (runTail env db.nextId (get_cluster_info env.api)
            (jobOutputDir env.settings db.nextId)
            (applyOp fs (.mkdir (jobOutputDir env.settings db.nextId)))
            (db2, p2, ar2, evs2, err2)).2.2.2 := by
      unfold runTrace
      rw [hrun, hGL]
    have hD : runDB env db fs
        = (runTail env db.nextId (get_cluster_info env.api)
            (jobOutputDir env.settings db.nextId)
            (applyOp fs (.mkdir (jobOutputDir env.settings db.nextId)))
            (db2, p2, ar2, evs2, err2)).2.1 := by
      unfold runDB
      rw [hrun, hGL]
    obtain ⟨mid, tail, hmid, htail, htr⟩ := runTail_trace env db.nextId
        (get_cluster_info env.api)
        (jobOutputDir env.settings db.nextId)
        (applyOp fs (.mkdir (jobOutputDir env.settings db.nextId)))
        db2 p2 ar2 evs2 err2
    have huv : updateVals (runTrace env db fs) = updateVals evs2
        ∨ updateVals (runTrace env db fs) = updateVals evs2 ++ [p2] := by
      rcases htail with h | ⟨st, _hst2, h⟩
      · refine Or.inl ?_
        rw [hT, htr, h, updateVals_append, updateVals_append]
        rcases hmid with h2 | h2 <;> subst h2 <;> simp [updateVals]
      · refine Or.inr ?_
        rw [hT, htr, h, updateVals_append, updateVals_append]
        rcases hmid with h2 | h2 <;> subst h2 <;> simp [updateVals]
    refine ⟨?_, ?_, ?_, hconj4⟩
    · rcases huv with h | h
      · rw [h]
        exact hch.tail
      · rw [h]
        apply List.chain'_append.mpr
        refine ⟨hch.tail, List.chain'_singleton p2, ?_⟩
        intro x hx y hy
        simp only [List.head?_cons, Option.mem_def, Option.some.injEq] at hy
        subst hy
        rcases hlast with h3 | ⟨h1, _h2⟩
        · rw [h3] at hx
          simp only [Option.mem_def, Option.some.injEq] at hx
          subst hx
          exact Nat.le_refl p2
        · rw [h1] at hx
          simp at hx
    · intro v hv
      rcases huv with h | h <;> rw [h] at hv
      · have := hbd v hv
        omega
      · rcases List.mem_append.mp hv with h2 | h2
        · have := hbd v h2
          omega
        · simp only [List.mem_singleton] at h2
          subst h2
          omega
    · rcases runTail_row env db.nextId (get_cluster_info env.api)
          (jobOutputDir env.settings db.nextId)
          (applyOp fs (.mkdir (jobOutputDir env.settings db.nextId)))
          db2 p2 ar2 evs2 err2 row' hrow' with hlook | ⟨e, hlook⟩ | hlook
      · refine ⟨row', ?_, htot, ?_⟩
        · rw [hD]
          exact hlook
        · have hpb := hprocb (Nat.le_refl 0)
          rw [htot]
          omega
      · refine ⟨updatedRow p2 "failed" (some e) row', ?_, ?_, ?_⟩
        · rw [hD]
          exact hlook
        · rw [updatedRow_total]
          exact htot
        · rw [updatedRow_processed, updatedRow_total, htot]
          omega
      · refine ⟨updatedRow p2 "completed" none row', ?_, ?_, ?_⟩
        · rw [hD]
          exact hlook
        · rw [updatedRow_total]
          exact htot
        · rw [updatedRow_processed, updatedRow_total, htot]
          omega

/-- C3 witness: the demo run's progress updates. -/
theorem c3_witness :
    List.Chain' (· ≤ ·) (updateVals (runTrace envDemo {} fs0))
    ∧ (∀ v ∈ updateVals (runTrace envDemo {} fs0),
        v ≤ (get_all_resources envDemo.api).length)
    ∧ (∃ row, List.lookup ({} : DB).nextId (runDB envDemo {} fs0).jobs = some row
        ∧ row.total_vms = (get_all_resources envDemo.api).length
        ∧ row.processed_vms ≤ row.total_vms)
    ∧ (envDemo.noStepFailure →
        runTrace envDemo {} fs0
          = groupEventsFrom envDemo ({} : DB).nextId (get_cluster_info envDemo.api)
              (chunks envDemo.settings.batch_size (get_all_resources envDemo.api)) 0
            ++ [Event.persistReport ({} : DB).nextId "summary",
                Event.updateJob ({} : DB).nextId (keptCount envDemo) "completed"]
        ∧ (runningUpdateVals (runTrace envDemo {} fs0)).length
            = (chunks envDemo.settings.batch_size (get_all_resources envDemo.api)).length) :=
  c3_progress_monotone_bounded envDemo {} fs0 (by decide) (by decide)

/-- C5: the orchestrator partitions the inventory with Python slicing
`all_resources[i:i+batch_size]` for `i in range(0, n, batch_size)`, i.e.
`chunks`: there are exactly ceil(n/b) contiguous groups whose concatenation
is the inventory in order (no re-sorting), every group is non-empty with at
most `b` elements, every group but the last has exactly `b`; an inventory
[r1..r7] with batch_size 5 yields exactly [r1..r5] and [r6,r7]; and in the
run's event trace each group's persistence calls and progress update come
before the next group's first analysis call (the trace is the concatenation
of per-group segments analyze* ++ persist* ++ update). -/
theorem c5_fixed_size_grouping (b : Nat) (hb : 0 < b) (l : List VMData)
    (env : Env) (db : DB) (fs : FS)
    (hbs : env.settings.batch_size = b) (hne : get_all_resources env.api ≠ [])
    (hnf : env.noStepFailure) :
    (chunks b l).length = (l.length + b - 1) / b
    ∧ (chunks b l).flatten = l
    ∧ (∀ g ∈ chunks b l, g ≠ [] ∧ g.length ≤ b)
    ∧ (∀ g ∈ (chunks b l).dropLast, g.length = b)
    ∧ (∀ r1 r2 r3 r4 r5 r6 r7 : VMData,
        chunks 5 [r1, r2, r3, r4, r5, r6, r7] = [[r1, r2, r3, r4, r5], [r6, r7]])
    ∧ runTrace env db fs
        = groupEventsFrom env db.nextId (get_cluster_info env.api)
            (chunks b (get_all_resources env.api)) 0
          ++ [Event.persistReport db.nextId "summary",
              Event.updateJob db.nextId (keptCount env) "completed"] := by
  refine ⟨chunks_length b hb l, chunks_flatten b hb l,
    fun g hg => chunks_mem b hb l g hg,
    fun g hg => chunks_dropLast b hb l g hg,
    fun r1 r2 r3 r4 r5 r6 r7 => rfl, ?_⟩
  obtain ⟨_, htr, _, _⟩ := run_noFail env db fs (isEmpty_false_of_ne_nil hne) hnf
  rw [hbs] at htr
  exact htr

/-- C5 witness: the demo run with batch size 5. -/
theorem c5_witness :
    (chunks 5 [vmDemoX]).length = (([vmDemoX] : List VMData).length + 5 - 1) / 5
    ∧ runTrace envDemo {} fs0
        = groupEventsFrom envDemo ({} : DB).nextId (get_cluster_info envDemo.api)
            (chunks 5 (get_all_resources envDemo.api)) 0
          ++ [Event.persistReport ({} : DB).nextId "summary",
              Event.updateJob ({} : DB).nextId (keptCount envDemo) "completed"] :=
  ⟨(c5_fixed_size_grouping 5 (by decide) [vmDemoX] envDemo {} fs0 rfl (by decide)
      ⟨fun _ => rfl, rfl, rfl, rfl, rfl, rfl, fun _ _ => ⟨"SUMMARY", rfl⟩⟩).1,
   (c5_fixed_size_grouping 5 (by decide) [vmDemoX] envDemo {} fs0 rfl (by decide)
      ⟨fun _ => rfl, rfl, rfl, rfl, rfl, rfl, fun _ _ => ⟨"SUMMARY", rfl⟩⟩).2.2.2.2.2⟩

/-- C10 (implicit): `process_batch` preserves the positional order of its
input group — the gather list is in task-submission order and entries that
resolved to raw exceptions are dropped without reordering the survivors:
the output is exactly the non-faulting inputs' results in input order, an
order-preserving sublist of the full per-input result list.  Consequently,
over a full run the persisted result sequence is the inventory-ordered
result list of the non-faulting resources. -/
theorem c10_gather_order_preserved
    (provider : VMData → Option ClusterData → Except String Artifacts)
    (fault : VMData → Option String) (cluster : Option ClusterData) (vms : List VMData)
    (env : Env) (db : DB) (fs : FS)
    (hne : get_all_resources env.api ≠ []) (hb : 0 < env.settings.batch_size)
    (hnf : env.noStepFailure) :
    process_batch provider fault cluster vms
      = (vms.filter (fun v => (fault v).isNone)).map (process_single_vm provider cluster)
    ∧ (process_batch provider fault cluster vms).Sublist
        (vms.map (process_single_vm provider cluster))
    ∧ persistVals (runTrace env db fs)
      = ((get_all_resources env.api).filter (fun v => (env.fault v).isNone)).map
          (process_single_vm env.provider (get_cluster_info env.api)) := by
  refine ⟨process_batch_eq provider fault cluster vms, ?_, ?_⟩
  · rw [process_batch_eq]
    exact List.Sublist.map _ (List.filter_sublist vms)
  · obtain ⟨_, _, _, hpv⟩ := run_noFail env db fs (isEmpty_false_of_ne_nil hne) hnf
    rw [hpv]
    unfold keptResults
    have hfun : (chunks env.settings.batch_size (get_all_resources env.api)).map
        (process_batch env.provider env.fault (get_cluster_info env.api))
        = (chunks env.settings.batch_size (get_all_resources env.api)).map
          (fun g => (g.filter (fun v => (env.fault v).isNone)).map
            (process_single_vm env.provider (get_cluster_info env.api))) :=
      List.map_congr_left (fun g _ => process_batch_eq _ _ _ g)
    rw [hfun, flatten_map_filter_map, chunks_flatten _ hb]

/-- C10 witness: the demo run persists both resources in inventory order. -/
theorem c10_witness :
    process_batch envDemo.provider envDemo.fault (get_cluster_info envDemo.api) [vmDemoX, vmDemoY]
      = ([vmDemoX, vmDemoY].filter (fun v => (envDemo.fault v).isNone)).map
          (process_single_vm envDemo.provider (get_cluster_info envDemo.api))
    ∧ persistVals (runTrace envDemo {} fs0)
      = ((get_all_resources envDemo.api).filter (fun v => (envDemo.fault v).isNone)).map
          (process_single_vm envDemo.provider (get_cluster_info envDemo.api)) :=
  ⟨(c10_gather_order_preserved envDemo.provider envDemo.fault (get_cluster_info envDemo.api)
      [vmDemoX, vmDemoY] envDemo {} fs0 (by decide) (by decide)
      ⟨fun _ => rfl, rfl, rfl, rfl, rfl, rfl, fun _ _ => ⟨"SUMMARY", rfl⟩⟩).1,
   (c10_gather_order_preserved envDemo.provider envDemo.fault (get_cluster_info envDemo.api)
      [vmDemoX, vmDemoY] envDemo {} fs0 (by decide) (by decide)
      ⟨fun _ => rfl, rfl, rfl, rfl, rfl, rfl, fun _ _ => ⟨"SUMMARY", rfl⟩⟩).2.2⟩

/-- C6 counterexample: the Ansible category is enabled by default and
`resPlaybook` carries the non-empty playbook text "PLAYBOOK_BODY_XYZ", yet
the consolidated `site.yml` content for `[resPlaybook]` does NOT contain
that text anywhere: the consolidated file for this category holds only the
resource-identifying header and a pointer comment, so it does not aggregate
the resources' same-category output as claimed. -/
theorem c6_counterexample :
    Settings.enable_ansible {} = true
    ∧ hasAnsible resPlaybook = true
    ∧ strIn (siteYmlHeader resPlaybook) (siteYmlContent [resPlaybook])
    ∧ ¬ strIn "PLAYBOOK_BODY_XYZ" (siteYmlContent [resPlaybook]) := by
  refine ⟨rfl, rfl, ?_, ?_⟩
  · decide
  · decide

/-- C6 amended: for the infra-template (Terraform) category the consolidated
`main.tf` does aggregate every resource's same-category output behind a
resource-identifying header; for the config-management (Ansible) category
the consolidated `site.yml` carries a resource-identifying header per
contributing resource but only a pointer comment instead of the playbook
text, which is written to that resource's own file under
`ansible/playbooks/`; and the writer also emits the static boilerplate files
(`variables.tf`, the two READMEs) whose content is fixed text not derived
from results. -/
theorem c6_amended_consolidated (s : Settings) (outDir : FsPath)
    (results : List AnalysisResult)
    (ht : s.enable_terraform = true) (ha : s.enable_ansible = true) :
    siteYmlContent results
      = siteYmlPreamble ++ String.join ((results.filter hasAnsible).map siteYmlSection)
    ∧ (∀ r ∈ results, hasTf r = true →
        strIn (tfLabel r) (mainTfContent results)
        ∧ strIn (r.terraform_template.getD "") (mainTfContent results))
    ∧ (∀ r ∈ results, hasAnsible r = true →
        strIn (siteYmlHeader r) (siteYmlContent results)
        ∧ FsOp.write (outDir ++ ["ansible", "playbooks",
             sanitize r.vm.vm_name ++ "_" ++ r.vm.vm_id ++ ".yml"])
            (r.ansible_playbook.getD "") ∈ consolidatedOps s outDir results)
    ∧ FsOp.write (outDir ++ ["terraform", "variables.tf"]) variablesTf
        ∈ consolidatedOps s outDir results
    ∧ FsOp.write (outDir ++ ["terraform", "README.md"]) terraformReadme
        ∈ consolidatedOps s outDir results
    ∧ FsOp.write (outDir ++ ["ansible", "README.md"]) ansibleReadme
        ∈ consolidatedOps s outDir results := by
  refine ⟨siteYmlContent_eq results, ?_, ?_, ?_, ?_, ?_⟩
  · intro r hr htf
    have hmem : tfSection r ∈ (results.filter hasTf).map tfSection :=
      List.mem_map_of_mem tfSection (List.mem_filter.mpr ⟨hr, htf⟩)
    have hsec : strIn (tfSection r) (mainTfContent results) := by
      rw [mainTfContent_eq results]
      exact strIn_of_append_left _ _ _ (strIn_join_of_mem _ _ hmem)
    constructor
    · refine strIn_trans _ (tfSection r) _ ?_ hsec
      unfold tfSection
      exact strIn_of_append_right _ _ _ (strIn_append_self _ _)
    · refine strIn_trans _ (tfSection r) _ ?_ hsec
      unfold tfSection
      exact strIn_of_append_right _ _ _ (strIn_append_self_right _ _)
  · intro r hr hans
    constructor
    · have hmem : siteYmlSection r ∈ (results.filter hasAnsible).map siteYmlSection :=
        List.mem_map_of_mem siteYmlSection (List.mem_filter.mpr ⟨hr, hans⟩)
      have hsec : strIn (siteYmlSection r) (siteYmlContent results) := by
        rw [siteYmlContent_eq results]
        exact strIn_of_append_left _ _ _ (strIn_join_of_mem _ _ hmem)
      refine strIn_trans _ (siteYmlSection r) _ ?_ hsec
      rw [siteYmlSection_eq]
      exact strIn_append_self _ _
    · have hop : FsOp.write (outDir ++ ["ansible", "playbooks",
           sanitize r.vm.vm_name ++ "_" ++ r.vm.vm_id ++ ".yml"])
          (r.ansible_playbook.getD "")
          ∈ (results.filter hasAnsible).map (fun r =>
              FsOp.write (outDir ++ ["ansible", "playbooks",
                sanitize r.vm.vm_name ++ "_" ++ r.vm.vm_id ++ ".yml"])
                (r.ansible_playbook.getD "")) :=
        List.mem_map_of_mem _ (List.mem_filter.mpr ⟨hr, hans⟩)
      unfold consolidatedOps
      rw [ht, ha]
      simp only [if_true]
      refine List.mem_append_right _ ?_
      exact List.mem_append_left _ (List.mem_append_right _ hop)
  · unfold consolidatedOps
    rw [ht, ha]
    simp
  · unfold consolidatedOps
    rw [ht, ha]
    simp
  · unfold consolidatedOps
    rw [ht, ha]
    simp

/-- C6 witness: the amended statement at the demo playbook result. -/
theorem c6_witness :
    strIn (siteYmlHeader resPlaybook) (siteYmlContent [resPlaybook])
    ∧ FsOp.write (["out"] ++ ["ansible", "playbooks",
         sanitize resPlaybook.vm.vm_name ++ "_" ++ resPlaybook.vm.vm_id ++ ".yml"])
        (resPlaybook.ansible_playbook.getD "")
      ∈ consolidatedOps {} ["out"] [resPlaybook] :=
  (c6_amended_consolidated {} ["out"] [resPlaybook] rfl rfl).2.2.1 resPlaybook
    (by simp) rfl
